import Mathlib

/-!
Shallow embedding of the scrape-geocode-upsert pipeline of the sf-events
repository (src/scraper_service.py, src/geocode_all_events.py, src/models.py),
together with theorems settling the frozen claims C1..C10.

Modelling conventions:
* Python dict-shaped extracted records become the structure `RawRecord`,
  with absent keys modelled as `none`.
* SQLAlchemy tables become lists of rows inside `DB`; `session.query(...).first()`
  becomes a first-match search, `session.add` an append, in-place ORM mutation a
  positional list update.  Surrogate integer ids are not modelled; the event's
  venue foreign key is represented by the venue's (name, city) identity key.
* Floats carry no arithmetic in the modelled code paths, so coordinates are
  rationals; Python truthiness of a float (`not venue.latitude`) is `none` or `0`.
* The network geocoding provider is an explicit oracle `String -> NetResp`
  (query text to response); every outbound request attempt is counted.
* `datetime.strptime(s, "%Y-%m-%d")` is modelled by `parseDateISO`
  (4-digit year, 1-2 digit month 1..12, 1-2 digit day validated against the
  month length, nothing left over), returning `none` where Python raises.
-/

namespace SFEvents

/-- Is the first character list a prefix of the second? -/
def prefLC : List Char → List Char → Bool
  | [], _ => true
  | _ :: _, [] => false
  | a :: as, b :: bs => a == b && prefLC as bs

/-- Is the first character list a contiguous sublist of the second? -/
def subLC : List Char → List Char → Bool
  | n, [] => n.isEmpty
  | n, h :: t => prefLC n (h :: t) || subLC n t

/-- Substring test: Python's `needle in hay`. -/
def containsStr (needle hay : String) : Bool :=
  subLC needle.toList hay.toList

/-- Association-list lookup modelling Python dict lookup (last write wins via
front insertion). -/
def alookup {α : Type} (k : String) : List (String × α) → Option α
  | [] => none
  | (k2, v) :: t => if k2 = k then some v else alookup k t

/-- Apply `f` to the first element satisfying `p`, leaving the rest unchanged:
the effect of mutating the row returned by `query(...).first()`. -/
def updateFirst {α : Type} (p : α → Bool) (f : α → α) : List α → List α
  | [] => []
  | a :: l => if p a then f a :: l else a :: updateFirst p f l

/-- Calendar date as (year, month, day). -/
abbrev PDate := Nat × Nat × Nat

/-- Order-embedding of valid dates into Nat (month < 100, day < 100). -/
def dateKey (d : PDate) : Nat := d.1 * 10000 + d.2.1 * 100 + d.2.2

/-- Python `date` comparison (lexicographic on valid dates). -/
def dateLe (a b : PDate) : Bool := dateKey a ≤ dateKey b

/-- Days in a month, with the Gregorian leap rule (as `datetime.date` validates). -/
def daysInMonth (y m : Nat) : Nat :=
  if m = 2 then (if y % 4 = 0 ∧ (y % 100 ≠ 0 ∨ y % 400 = 0) then 29 else 28)
  else if m = 4 ∨ m = 6 ∨ m = 9 ∨ m = 11 then 30 else 31

/-- Split a character list on the '-' separator. -/
def splitDash : List Char → List (List Char)
  | [] => [[]]
  | c :: cs =>
    let rest := splitDash cs
    if c == '-' then [] :: rest
    else match rest with
      | [] => [[c]]
      | g :: gs => (c :: g) :: gs

/-- Read a nonempty all-digit character list as a Nat. -/
def digitsToNat? (cs : List Char) : Option Nat :=
  if cs ≠ [] ∧ cs.all Char.isDigit then
    some (cs.foldl (fun n c => n * 10 + (c.toNat - 48)) 0)
  else none

/-- `datetime.strptime(s, "%Y-%m-%d").date()`: `none` models the raised
`ValueError` (4-digit year, 1-2 digit month in 1..12, 1-2 digit day valid for
the month, nothing left over). -/
def parseDateISO (s : String) : Option PDate :=
  match splitDash s.toList with
  | [ys, ms, ds] =>
    match digitsToNat? ys, digitsToNat? ms, digitsToNat? ds with
    | some y, some m, some d =>
      if ys.length = 4 ∧ 1 ≤ ms.length ∧ ms.length ≤ 2 ∧ 1 ≤ m ∧ m ≤ 12 ∧
         1 ≤ ds.length ∧ ds.length ≤ 2 ∧ 1 ≤ d ∧ d ≤ daysInMonth y m
      then some (y, m, d) else none
    | _, _, _ => none
  | _ => none

/-- A geocode result: `{lat, lon, display_name, approximate}` (the scripts'
extra `query` field is not consulted by any claim). -/
structure Coords where
  lat : Rat
  lon : Rat
  display_name : String
  approximate : Bool
deriving Repr, DecidableEq, Inhabited

/-- One extracted event record (output of `EventScraper.parse_single_event`);
absent dict keys are `none`. -/
structure RawRecord where
  title : Option String
  url : Option String
  venue : Option String
  city : Option String
  dateISO : Option String
  dayLabel : Option String
  timeRange : Option String
  price : Option String
  age : Option String
  genres : List String
  promoters : List String
  extraLinks : List (String × String)
  hidden : Bool
deriving Repr, DecidableEq, Inhabited

/-- The all-absent record, for building concrete inputs. -/
def emptyRec : RawRecord :=
  ⟨none, none, none, none, none, none, none, none, none, [], [], [], false⟩

/-- Python truthiness of `d.get(key)` for a string value. -/
def strTruthy : Option String → Bool
  | none => false
  | some s => s ≠ ""

/-- Python truthiness of `venue.latitude` (a float column): falsy iff
NULL or exactly 0. -/
def latTruthy : Option Rat → Bool
  | none => false
  | some l => l ≠ 0

/-! ## Geocode clients

Two client implementations exist in the repository:
`EventScraper.geocode_venue` (src/scraper_service.py, used by the pipeline) and
`SmartGeocoder.geocode_location` (src/geocode_all_events.py).  The provider is
an oracle from the query text to a response; `calls` counts outbound request
attempts (an erroring request still counts as one attempt). -/

/-- One provider hit: latitude, longitude, display name and the OSM `type`
field (consulted only by `geocode_venue`). -/
structure Hit where
  lat : Rat
  lon : Rat
  display_name : String
  ty : String
deriving Repr, DecidableEq, Inhabited

/-- A provider response: a (possibly empty) hit list, or a raised
network/HTTP/parse error. -/
inductive NetResp where
  | ok (hits : List Hit)
  | err
deriving Repr, DecidableEq, Inhabited

/-- Did the response carry no usable hit (empty list or error)? -/
def noHits : NetResp → Bool
  | .ok (_ :: _) => false
  | _ => true

/-- Output of `EventScraper.geocode_venue`: the updated in-memory cache, the
returned value, and the number of outbound network requests made. -/
structure GVOut where
  cache : List (String × Coords)
  result : Option Coords
  calls : Nat
deriving Repr, DecidableEq

/-- `EventScraper.geocode_venue` (src/scraper_service.py lines 186-251).
Cache check first; then a case-sensitive `'TBA' in name or 'TBD' in name`
skip; primary query "venue, city, California"; on a raised error the outer
`except` returns None with no fallback and no cache write; on an empty primary
result the fallback "city, California" runs; a total failure is returned as
None without being cached.  On a primary hit, `approximate` is
`'club' not in location type (lowercased)`. -/
def geocodeVenue (provider : String → NetResp) (cache : List (String × Coords))
    (venue city : String) : GVOut :=
  let key := venue ++ "|" ++ city
  match alookup key cache with
  | some c => ⟨cache, some c, 0⟩
  | none =>
    if containsStr "TBA" venue || containsStr "TBD" venue then ⟨cache, none, 0⟩
    else
      match provider (venue ++ ", " ++ city ++ ", California") with
      | .err => ⟨cache, none, 1⟩
      | .ok [] =>
        match provider (city ++ ", California") with
        | .err => ⟨cache, none, 2⟩
        | .ok [] => ⟨cache, none, 2⟩
        | .ok (h :: _) =>
          let c : Coords := ⟨h.lat, h.lon, venue ++ " (approximate - city center)", true⟩
          ⟨(key, c) :: cache, some c, 2⟩
      | .ok (h :: _) =>
        let c : Coords :=
          ⟨h.lat, h.lon, h.display_name,
           !containsStr "club" (String.mk (h.ty.toList.map Char.toLower))⟩
        ⟨(key, c) :: cache, some c, 1⟩

/-- Output of `SmartGeocoder.geocode_location`: cache values are
`Option Coords`, where a stored `none` is the cached "no result" sentinel. -/
structure SGOut where
  cache : List (String × Option Coords)
  result : Option Coords
  calls : Nat
deriving Repr, DecidableEq

/-- `SmartGeocoder.geocode_location` (src/geocode_all_events.py lines 44-114).
Cache check first (a cached `None` is returned as a hit); primary query
"venue, city, CA"; on an empty or erroring primary response the fallback
"city, CA" runs; a total failure caches the `None` sentinel under the key and
returns it.  A primary hit carries `approximate := false`; a fallback hit
carries `approximate := true` with the "(approximate - city center)" display
name. -/
def geocodeLocation (provider : String → NetResp)
    (cache : List (String × Option Coords)) (venue city : String) : SGOut :=
  let key := venue ++ "|" ++ city
  match alookup key cache with
  | some v => ⟨cache, v, 0⟩
  | none =>
    match provider (venue ++ ", " ++ city ++ ", CA") with
    | .ok (h :: _) =>
      let c : Coords := ⟨h.lat, h.lon, h.display_name, false⟩
      ⟨(key, some c) :: cache, some c, 1⟩
    | _ =>
      match provider (city ++ ", CA") with
      | .ok (h :: _) =>
        let c : Coords := ⟨h.lat, h.lon, venue ++ " (approximate - city center)", true⟩
        ⟨(key, some c) :: cache, some c, 2⟩
      | _ => ⟨(key, none) :: cache, none, 2⟩

/-! ## Store and upsert engine (src/models.py, src/scraper_service.py 254-430) -/

/-- A row of the `venues` table. -/
structure VenueRow where
  name : String
  city : String
  latitude : Option Rat
  longitude : Option Rat
  display_name : Option String
  is_approximate : Bool
  is_tba : Bool
deriving Repr, DecidableEq, Inhabited

/-- A row of the `events` table, with its many-to-many genre/promoter names and
one-to-many extra links inlined, and the venue foreign key represented by the
venue's (name, city) identity key.  `original_json` keeps the serialized raw
record (`json.dumps(event_data)`), modelled as the record itself. -/
structure EventRow where
  title : String
  url : Option String
  hidden : Bool
  date : Option PDate
  day_label : Option String
  time_range : Option String
  venueKey : Option (String × String)
  price : Option String
  age_restriction : Option String
  genres : List String
  promoters : List String
  extra_links : List (String × String)
  original_json : Option RawRecord
  source : String
deriving Repr, DecidableEq, Inhabited

/-- The relational store: events, venues, genres, promoters. -/
structure DB where
  events : List EventRow
  venues : List VenueRow
  genres : List String
  promoters : List String
deriving Repr, DecidableEq, Inhabited

/-- The empty store. -/
def emptyDB : DB := ⟨[], [], [], []⟩

/-- A `DatabaseUpdater`: the session's store plus the per-run in-memory lookup
caches (`venue_cache`, `genre_cache`, `promoter_cache`).  The Python caches map
identity keys to live ORM objects; since rows are identified here by their
identity keys, recording the cached keys suffices. -/
structure UState where
  db : DB
  venueCache : List (String × String)
  genreCache : List String
  promoterCache : List String
deriving Repr, DecidableEq, Inhabited

/-- A fresh `DatabaseUpdater(session)` over a store. -/
def freshUpdater (db : DB) : UState := ⟨db, [], [], []⟩

/-- `re.search('TBA|TBD', name, re.I)`: case-insensitive containment. -/
def hasTBAci (name : String) : Bool :=
  containsStr "TBA" (String.mk (name.toList.map Char.toUpper)) ||
  containsStr "TBD" (String.mk (name.toList.map Char.toUpper))

/-- The venue-row match used by the `get_or_create_venue` query. -/
def venueMatch (name city : String) (v : VenueRow) : Bool :=
  v.name == name && v.city == city

/-- Overwrite a venue's coordinate fields from a geocode result. -/
def applyCoords (v : VenueRow) (c : Coords) : VenueRow :=
  { v with latitude := some c.lat, longitude := some c.lon,
           display_name := some c.display_name, is_approximate := c.approximate }

/-- The coordinate update applied to the queried venue row:
`elif coordinates and not venue.latitude` guards the overwrite, so a row
whose latitude is truthy is left alone. -/
def coordF (c : Coords) (v : VenueRow) : VenueRow :=
  if latTruthy v.latitude then v else applyCoords v c

/-- `DatabaseUpdater.get_or_create_venue` (src/scraper_service.py 263-302).
Cache hit returns the cached object with no store access; otherwise the store
is queried by (name, city); a missing venue is created (with `is_tba` from the
case-insensitive TBA/TBD search and the coordinates applied when given); an
existing venue gets the coordinates attached only when `coordinates` is truthy
and its stored latitude is falsy.  The key is then cached. -/
def getOrCreateVenue (st : UState) (name city : String) (coords : Option Coords) :
    UState :=
  if (name, city) ∈ st.venueCache then st
  else
    let st1 :=
      if st.db.venues.any (venueMatch name city) then
        match coords with
        | some c =>
          { st with db :=
              { st.db with venues := updateFirst (venueMatch name city) (coordF c) st.db.venues } }
        | none => st
      else
        let v0 : VenueRow :=
          { name := name, city := city, latitude := none, longitude := none,
            display_name := none, is_approximate := false,
            is_tba := name != "" && hasTBAci name }
        let v := match coords with | some c => applyCoords v0 c | none => v0
        { st with db := { st.db with venues := st.db.venues ++ [v] } }
    { st1 with venueCache := (name, city) :: st1.venueCache }

/-- `DatabaseUpdater.get_or_create_genre` (src/scraper_service.py 304-317). -/
def getOrCreateGenre (st : UState) (name : String) : UState :=
  if name ∈ st.genreCache then st
  else
    let st1 :=
      if name ∈ st.db.genres then st
      else { st with db := { st.db with genres := st.db.genres ++ [name] } }
    { st1 with genreCache := name :: st1.genreCache }

/-- `DatabaseUpdater.get_or_create_promoter` (src/scraper_service.py 319-332). -/
def getOrCreatePromoter (st : UState) (name : String) : UState :=
  if name ∈ st.promoterCache then st
  else
    let st1 :=
      if name ∈ st.db.promoters then st
      else { st with db := { st.db with promoters := st.db.promoters ++ [name] } }
    { st1 with promoterCache := name :: st1.promoterCache }

/-- The event query `Event.title == data.get('title'), Event.date == date`:
an absent title compares as SQL NULL and matches no stored row (the `title`
column is NOT NULL). -/
def eventMatch (t : Option String) (d : Option PDate) (e : EventRow) : Bool :=
  (match t with | some s => e.title == s | none => false) && e.date == d

/-- Genre names attached to an event: `for g in set(genres): if g:` -- the
record's own list deduplicated with empty names dropped (Python's set
iteration order is arbitrary; the attached collection is kept as the dedup of
the list, which has the same members). -/
def dedupNE (gs : List String) : List String := (gs.filter (fun g => g != "")).dedup

/-- Promoter names attached to an event: `for p in promoters: if p:` -- the
raw list with empty names dropped, duplicates NOT removed in the in-memory
collection.  Whether such an attachment can PERSIST is decided by the
`event_promoters` composite primary key at flush time, modelled by
`updateOrCreateEventChecked` below. -/
def filterNE (ps : List String) : List String := ps.filter (fun p => p != "")

/-- The venue reference stored on the event: present iff the record's venue is
truthy, keyed by (venue, city defaulting to "San Francisco"). -/
def recVenueKey (r : RawRecord) : Option (String × String) :=
  if strTruthy r.venue then some (r.venue.getD "", r.city.getD "San Francisco") else none

/-- The update applied to an existing event (src/scraper_service.py 359-383):
replace url, time range, price, age restriction, venue reference, and the
genre/promoter sets (clear-then-reattach); everything else -- title, date,
day label, hidden flag, extra links, original payload, source -- is untouched.
This is the IN-MEMORY mutation of the session's event; the association-table
primary keys that decide whether a duplicate attachment can reach the store
are enforced by `updateOrCreateEventChecked` below. -/
def updE (r : RawRecord) (vk : Option (String × String)) (e : EventRow) : EventRow :=
  { e with url := r.url, time_range := r.timeRange, price := r.price,
           age_restriction := r.age, venueKey := vk,
           genres := dedupNE r.genres, promoters := filterNE r.promoters }

/-- The event created on first sighting (src/scraper_service.py 385-426), as
built in memory before `session.flush()`; the flush-time association-table
primary-key check is `updateOrCreateEventChecked` below. -/
def newE (r : RawRecord) (vk : Option (String × String)) (d : Option PDate) : EventRow :=
  { title := r.title.getD "Untitled Event", url := r.url, hidden := r.hidden,
    date := d, day_label := r.dayLabel, time_range := r.timeRange, venueKey := vk,
    price := r.price, age_restriction := r.age,
    genres := dedupNE r.genres, promoters := filterNE r.promoters,
    extra_links := r.extraLinks.filter (fun l => l.2 != ""),
    original_json := some r, source := "19hz" }

/-- The date the engine works with: `some d?` when `strptime` succeeds or the
record has no date; `none` when `strptime` raises (so the record fails). -/
def recDate? (r : RawRecord) : Option (Option PDate) :=
  match r.dateISO with
  | none => some none
  | some s =>
    match parseDateISO s with
    | some d => some (some d)
    | none => none

/-- The venue resolution inside `update_or_create_event`: `get_or_create_venue`
runs only when the record's venue is truthy. -/
def venueStep (st : UState) (r : RawRecord) (coords : Option Coords) : UState :=
  if strTruthy r.venue then
    getOrCreateVenue st (r.venue.getD "") (r.city.getD "San Francisco") coords
  else st

/-- The venue/genre/promoter resolution inside `update_or_create_event`:
resolve or create the venue, then each attached genre name, then each attached
promoter name. -/
def attachSteps (st : UState) (r : RawRecord) (coords : Option Coords) : UState :=
  (filterNE r.promoters).foldl getOrCreatePromoter
    ((dedupNE r.genres).foldl getOrCreateGenre (venueStep st r coords))

/-- The body of `update_or_create_event` after the date has been parsed:
query the event by (title, date); resolve/create the venue, the genres and the
promoters; then either update the first matching event in place or append a
newly created one. -/
def upsertCore (st : UState) (r : RawRecord) (coords : Option Coords)
    (d : Option PDate) : UState :=
  let matched := st.db.events.any (eventMatch r.title d)
  let st3 := attachSteps st r coords
  if matched then
    { st3 with db :=
        { st3.db with events := updateFirst (eventMatch r.title d) (updE r (recVenueKey r)) st3.db.events } }
  else
    { st3 with db := { st3.db with events := st3.db.events ++ [newE r (recVenueKey r) d] } }

/-- `DatabaseUpdater.update_or_create_event` (src/scraper_service.py 334-430):
`none` models the re-raised `ValueError` from date parsing, which occurs
before any store mutation.  This is the session-level mutation effect; the
flush-time association-table constraint check sits on top of it in
`updateOrCreateEventChecked` below. -/
def updateOrCreateEvent (st : UState) (r : RawRecord) (coords : Option Coords) :
    Option UState :=
  (recDate? r).map (upsertCore st r coords)

/-- Processing of one (record, coords) pair by the engine, with the caller
skipping a failed record (the raise leaves the session untouched, since the
parse precedes every mutation). -/
def processRecord (st : UState) (rc : RawRecord × Option Coords) : UState :=
  match updateOrCreateEvent st rc.1 rc.2 with
  | some st1 => st1
  | none => st

/-- One full Upsert Engine run over a batch: a fresh `DatabaseUpdater` (empty
caches) processes the records sequentially. -/
def runBatch (db : DB) (batch : List (RawRecord × Option Coords)) : DB :=
  (batch.foldl processRecord (freshUpdater db)).db

/-! ## Pipeline orchestrator (src/scraper_service.py `scrape_and_update`) -/

/-- The date-window filter loop (src/scraper_service.py 456-472): a record with
a parseable date is kept iff `today <= date <= cutoff`; a record whose date
fails to parse, or which has no date, is appended anyway.  `today` and
`cutoff = today + days_ahead` are supplied by the `datetime` library and enter
the model as parameters. -/
def filterWindow (today cutoff : PDate) : List RawRecord → List RawRecord
  | [] => []
  | r :: rs =>
    match r.dateISO with
    | some s =>
      match parseDateISO s with
      | some d =>
        if dateLe today d && dateLe d cutoff then r :: filterWindow today cutoff rs
        else filterWindow today cutoff rs
      | none => r :: filterWindow today cutoff rs
    | none => r :: filterWindow today cutoff rs

/-- The spec's description of which records the filter keeps: parsed date in
[today, cutoff], or date absent, or date unparseable. -/
def keepSpec (today cutoff : PDate) (r : RawRecord) : Bool :=
  match r.dateISO with
  | none => true
  | some s =>
    match parseDateISO s with
    | none => true
    | some d => dateLe today d && dateLe d cutoff

/-- The orchestrator's geocoding caches: `venue_coords_cache` (seeded from
venues already stored with coordinates) and the scraper's in-process
`geocode_cache`. -/
structure GeoCtx where
  vcache : List (String × Coords)
  gcache : List (String × Coords)
deriving Repr, DecidableEq, Inhabited

/-- Result of the per-record coordinate resolution. -/
structure ResolveOut where
  ctx : GeoCtx
  coords : Option Coords
  calls : Nat
deriving Repr, DecidableEq

/-- The per-record coordinate resolution (src/scraper_service.py 510-527):
only when the record has a truthy venue name NOT containing the
case-sensitive substring 'TBA' is geocoding considered; a `venue_coords_cache`
hit is reused; otherwise `geocode_venue` runs and a successful result is added
to `venue_coords_cache`. -/
def resolveCoords (provider : String → NetResp) (ctx : GeoCtx) (r : RawRecord) :
    ResolveOut :=
  match r.venue with
  | none => ⟨ctx, none, 0⟩
  | some vn =>
    if vn != "" && !containsStr "TBA" vn then
      let city := r.city.getD "San Francisco"
      let key := vn ++ "|" ++ city
      match alookup key ctx.vcache with
      | some c => ⟨ctx, some c, 0⟩
      | none =>
        let g := geocodeVenue provider ctx.gcache vn city
        match g.result with
        | some c => ⟨⟨(key, c) :: ctx.vcache, g.cache⟩, some c, g.calls⟩
        | none => ⟨⟨ctx.vcache, g.cache⟩, none, g.calls⟩
    else ⟨ctx, none, 0⟩

/-- The orchestrator loop state: the last committed store, the live session,
the geocoding caches, and the 1-based record counter. -/
structure OrchState where
  committed : DB
  sess : UState
  geo : GeoCtx
  idx : Nat
deriving Repr, DecidableEq

/-- One iteration of the processing loop (src/scraper_service.py 505-543):
geocode as needed, upsert; on success commit every 20th record
(`session.commit()` promotes the whole session state); on a raised error
`session.rollback()` resets the session to the last committed state (the
in-memory updater caches and geocode caches are plain dicts and are NOT
reverted) and processing continues with the next record. -/
def loopStep (provider : String → NetResp) (os : OrchState) (r : RawRecord) :
    OrchState :=
  let i := os.idx + 1
  let ro := resolveCoords provider os.geo r
  match updateOrCreateEvent os.sess r ro.coords with
  | some st1 =>
    if i % 20 == 0 then ⟨st1.db, st1, ro.ctx, i⟩ else ⟨os.committed, st1, ro.ctx, i⟩
  | none => ⟨os.committed, { os.sess with db := os.committed }, ro.ctx, i⟩

/-- The orchestrator's batch pass over the (already filtered) records,
starting from a fresh updater, ending with the final `session.commit()`:
the returned store is the state the database is left in. -/
def runLoop (provider : String → NetResp) (records : List RawRecord) (db : DB)
    (geo : GeoCtx) : DB :=
  (records.foldl (loopStep provider) ⟨db, freshUpdater db, geo, 0⟩).sess.db

/-! ## Helper lemmas -/

theorem updateFirst_length {α : Type} (p : α → Bool) (f : α → α) :
    ∀ l : List α, (updateFirst p f l).length = l.length := by
  intro l
  induction l with
  | nil => rfl
  | cons a l ih =>
    unfold updateFirst
    by_cases h : p a = true
    · simp [h]
    · simp [h, ih]

theorem updateFirst_append {α : Type} (p : α → Bool) (f : α → α) :
    ∀ (pre : List α) (e : α) (post : List α),
      (∀ x ∈ pre, p x = false) → p e = true →
      updateFirst p f (pre ++ e :: post) = pre ++ f e :: post := by
  intro pre
  induction pre with
  | nil => intro e post _ he; simp [updateFirst, he]
  | cons a l ih =>
    intro e post hpre he
    have ha : p a = false := hpre a (by simp)
    simp only [List.cons_append, updateFirst, ha]
    simp [ih e post (fun x hx => hpre x (by simp [hx])) he]

theorem updateFirst_map {α β : Type} (p : α → Bool) (f : α → α) (g : α → β)
    (hfg : ∀ x, g (f x) = g x) : ∀ l : List α, (updateFirst p f l).map g = l.map g := by
  intro l
  induction l with
  | nil => rfl
  | cons a l ih =>
    unfold updateFirst
    by_cases h : p a = true
    · simp [h, hfg]
    · simp [h, ih]

theorem updateFirst_mem {α : Type} (p : α → Bool) (f : α → α) :
    ∀ (l : List α) (x : α), x ∈ updateFirst p f l → x ∈ l ∨ ∃ y ∈ l, x = f y := by
  intro l
  induction l with
  | nil => intro x hx; simp [updateFirst] at hx
  | cons a l ih =>
    intro x hx
    unfold updateFirst at hx
    by_cases h : p a = true
    · simp only [h, if_true] at hx
      rcases List.mem_cons.mp hx with hx | hx
      · exact Or.inr ⟨a, by simp, hx⟩
      · exact Or.inl (by simp [hx])
    · simp only [h] at hx
      rcases List.mem_cons.mp hx with hx | hx
      · exact Or.inl (by simp [hx])
      · rcases ih x hx with hx | ⟨y, hy, hxy⟩
        · exact Or.inl (by simp [hx])
        · exact Or.inr ⟨y, by simp [hy], hxy⟩

theorem getElem?_append_of_some {α : Type} :
    ∀ (l l2 : List α) (i : Nat) (v : α), l[i]? = some v → (l ++ l2)[i]? = some v := by
  intro l
  induction l with
  | nil => intro l2 i v h; simp at h
  | cons a l ih =>
    intro l2 i v h
    cases i with
    | zero => simpa using h
    | succ i => simpa using ih l2 i v (by simpa using h)

theorem updateFirst_getElem_truthy (p : VenueRow → Bool) (c : Coords) :
    ∀ (l : List VenueRow) (i : Nat) (v : VenueRow),
      l[i]? = some v → latTruthy v.latitude = true →
      (updateFirst p (coordF c) l)[i]? = some v := by
  intro l
  induction l with
  | nil => intro i v h; simp at h
  | cons a l ih =>
    intro i v h hv
    cases i with
    | zero =>
      have ha : a = v := by simpa using h
      subst ha
      unfold updateFirst
      by_cases hp : p a = true
      · simp [hp, coordF, hv]
      · simp [hp]
    | succ i =>
      have h2 : l[i]? = some v := by simpa using h
      unfold updateFirst
      by_cases hp : p a = true
      · simpa [hp] using h2
      · simpa [hp] using ih i v h2 hv

/-! ## C8: cache hits return immediately with zero network calls -/

/-- C8: for every (venue, city) key already present in the geocode cache, both
clients -- `EventScraper.geocode_venue` and `SmartGeocoder.geocode_location`
(whose cache can hold the no-result sentinel `none`) -- return the cached
value unchanged with zero outbound network calls and an unchanged cache. -/
theorem C8_cache_hit :
    (∀ (provider : String → NetResp) (cache : List (String × Coords)) (venue city : String)
        (c : Coords), alookup (venue ++ "|" ++ city) cache = some c →
        geocodeVenue provider cache venue city = ⟨cache, some c, 0⟩) ∧
    (∀ (provider : String → NetResp) (cache : List (String × Option Coords)) (venue city : String)
        (v : Option Coords), alookup (venue ++ "|" ++ city) cache = some v →
        geocodeLocation provider cache venue city = ⟨cache, v, 0⟩) := by
  constructor
  · intro provider cache venue city c h
    simp [geocodeVenue, h]
  · intro provider cache venue city v h
    simp [geocodeLocation, h]

/-- C8 witness: a concrete cache hit for each client, the second one a cached
no-result sentinel. -/
theorem C8_witness :
    geocodeVenue (fun _ => NetResp.err) [("Public Works" ++ "|" ++ "San Francisco", ⟨1, 2, "PW", false⟩)]
      "Public Works" "San Francisco" =
      ⟨[("Public Works" ++ "|" ++ "San Francisco", ⟨1, 2, "PW", false⟩)], some ⟨1, 2, "PW", false⟩, 0⟩ ∧
    geocodeLocation (fun _ => NetResp.err) [("V" ++ "|" ++ "C", none)] "V" "C" =
      ⟨[("V" ++ "|" ++ "C", none)], none, 0⟩ :=
  ⟨C8_cache_hit.1 (fun _ => NetResp.err) _ "Public Works" "San Francisco" ⟨1, 2, "PW", false⟩ (by decide),
   C8_cache_hit.2 (fun _ => NetResp.err) _ "V" "C" none (by decide)⟩

/-! ## C5: caching of total geocode failures -/

/-- C5 counterexample: `EventScraper.geocode_venue` does NOT cache a total
failure.  With a provider returning an empty hit list for every query, the
resolve of ("Club X", "Oakland") fails after two network requests, the cache
stays empty (no no-result sentinel is written), and a second resolve of the
same key performs two further network calls instead of zero. -/
theorem C5_counterexample :
    geocodeVenue (fun _ => NetResp.ok []) [] "Club X" "Oakland" = ⟨[], none, 2⟩ ∧
    (geocodeVenue (fun _ => NetResp.ok [])
      (geocodeVenue (fun _ => NetResp.ok []) [] "Club X" "Oakland").cache
      "Club X" "Oakland").calls = 2 := by
  decide

/-- C5 (amended): the no-result sentinel contract holds for
`SmartGeocoder.geocode_location` (src/geocode_all_events.py): when both the
primary and the fallback query return empty or error, the key is cached with
the explicit sentinel `none` (distinct from an absent key) and `none` is
returned; a second resolve of the same key returns the sentinel with zero
network calls.  `EventScraper.geocode_venue` returns None on total failure
without caching it (see the counterexample). -/
theorem C5_sentinel (provider : String → NetResp) (cache : List (String × Option Coords))
    (venue city : String)
    (hmiss : alookup (venue ++ "|" ++ city) cache = none)
    (h1 : noHits (provider (venue ++ ", " ++ city ++ ", CA")) = true)
    (h2 : noHits (provider (city ++ ", CA")) = true) :
    geocodeLocation provider cache venue city =
      ⟨(venue ++ "|" ++ city, none) :: cache, none, 2⟩ ∧
    geocodeLocation provider ((venue ++ "|" ++ city, none) :: cache) venue city =
      ⟨(venue ++ "|" ++ city, none) :: cache, none, 0⟩ := by
  constructor
  · simp only [geocodeLocation, hmiss]
    rcases hp : provider (venue ++ ", " ++ city ++ ", CA") with hits | _
    · cases hits with
      | nil =>
        rcases hq : provider (city ++ ", CA") with hits2 | _
        · cases hits2 with
          | nil => rfl
          | cons h t => rw [hq] at h2; simp [noHits] at h2
        · rfl
      | cons h t => rw [hp] at h1; simp [noHits] at h1
    · rcases hq : provider (city ++ ", CA") with hits2 | _
      · cases hits2 with
        | nil => rfl
        | cons h t => rw [hq] at h2; simp [noHits] at h2
      · rfl
  · simp [geocodeLocation, alookup]

/-- C5 witness: the sentinel contract at a concrete always-empty provider. -/
theorem C5_witness :
    geocodeLocation (fun _ => NetResp.ok []) [] "Club X" "Oakland" =
      ⟨[("Club X" ++ "|" ++ "Oakland", none)], none, 2⟩ ∧
    geocodeLocation (fun _ => NetResp.ok []) [("Club X" ++ "|" ++ "Oakland", none)]
      "Club X" "Oakland" = ⟨[("Club X" ++ "|" ++ "Oakland", none)], none, 0⟩ :=
  C5_sentinel (fun _ => NetResp.ok []) [] "Club X" "Oakland" rfl rfl rfl

/-! ## C6: primary vs fallback geocode semantics -/

/-- C6 counterexample: `EventScraper.geocode_venue` (src/scraper_service.py
line 225) does not return `approximate = false` on a successful primary
query: it sets `approximate` to whether the hit's OSM type lacks the
substring "club".  A primary hit of type "bar" (one network call, so the
primary query succeeded) is cached and returned with `approximate = true`. -/
theorem C6_counterexample :
    geocodeVenue
      (fun q => if q = "V, C, California" then NetResp.ok [⟨1, 2, "Somewhere", "bar"⟩]
                else NetResp.ok []) [] "V" "C" =
      ⟨[("V|C", ⟨1, 2, "Somewhere", true⟩)], some ⟨1, 2, "Somewhere", true⟩, 1⟩ := by
  decide

/-- C6 (amended): for `SmartGeocoder.geocode_location` the claim holds as
stated: a non-empty primary response is cached and returned with
`approximate = false`, and only when the primary query is empty or errors and
the city-only fallback succeeds is the result `approximate = true` with
display name "venue (approximate - city center)".  For
`EventScraper.geocode_venue`, a non-empty primary response is cached and
returned with `approximate` equal to whether the hit's lowercased type does
NOT contain "club" (rather than `false`). -/
theorem C6_primary_fallback (provider : String → NetResp) (venue city : String) :
    (∀ (cache : List (String × Option Coords)) (h : Hit) (t : List Hit),
      alookup (venue ++ "|" ++ city) cache = none →
      provider (venue ++ ", " ++ city ++ ", CA") = .ok (h :: t) →
      geocodeLocation provider cache venue city =
        ⟨(venue ++ "|" ++ city, some ⟨h.lat, h.lon, h.display_name, false⟩) :: cache,
         some ⟨h.lat, h.lon, h.display_name, false⟩, 1⟩) ∧
    (∀ (cache : List (String × Option Coords)) (h : Hit) (t : List Hit),
      alookup (venue ++ "|" ++ city) cache = none →
      noHits (provider (venue ++ ", " ++ city ++ ", CA")) = true →
      provider (city ++ ", CA") = .ok (h :: t) →
      geocodeLocation provider cache venue city =
        ⟨(venue ++ "|" ++ city,
            some ⟨h.lat, h.lon, venue ++ " (approximate - city center)", true⟩) :: cache,
         some ⟨h.lat, h.lon, venue ++ " (approximate - city center)", true⟩, 2⟩) ∧
    (∀ (gcache : List (String × Coords)) (h : Hit) (t : List Hit),
      alookup (venue ++ "|" ++ city) gcache = none →
      containsStr "TBA" venue = false → containsStr "TBD" venue = false →
      provider (venue ++ ", " ++ city ++ ", California") = .ok (h :: t) →
      geocodeVenue provider gcache venue city =
        ⟨(venue ++ "|" ++ city,
            ⟨h.lat, h.lon, h.display_name,
             !containsStr "club" (String.mk (h.ty.toList.map Char.toLower))⟩) :: gcache,
         some ⟨h.lat, h.lon, h.display_name,
             !containsStr "club" (String.mk (h.ty.toList.map Char.toLower))⟩, 1⟩) := by
  refine ⟨?_, ?_, ?_⟩
  · intro cache h t hmiss hp
    simp [geocodeLocation, hmiss, hp]
  · intro cache h t hmiss h1 hq
    simp only [geocodeLocation, hmiss]
    rcases hp : provider (venue ++ ", " ++ city ++ ", CA") with hits | _
    · cases hits with
      | nil => simp [hq]
      | cons x xs => rw [hp] at h1; simp [noHits] at h1
    · simp [hq]
  · intro gcache h t hmiss hta htd hp
    simp [geocodeVenue, hmiss, hta, htd, hp]

/-- C6 witness: the primary-success conjunct at a concrete provider. -/
theorem C6_witness :
    geocodeLocation
      (fun q => if q = "Public Works, San Francisco, CA" then NetResp.ok [⟨3, 4, "PW, SF", "club"⟩]
                else NetResp.ok []) [] "Public Works" "San Francisco" =
      ⟨[("Public Works" ++ "|" ++ "San Francisco", some ⟨3, 4, "PW, SF", false⟩)],
       some ⟨3, 4, "PW, SF", false⟩, 1⟩ :=
  (C6_primary_fallback _ "Public Works" "San Francisco").1 [] ⟨3, 4, "PW, SF", "club"⟩ []
    rfl (by decide)

/-! ## C9: the orchestrator's date-window filter -/

/-- C9: the filter loop of `scrape_and_update` keeps exactly the records whose
parsed date lies in [today, cutoff], plus every record whose `dateISO` is
absent and every record whose `dateISO` fails to parse; no record is dropped
for lacking a parseable date.  (`filterWindow` is the loop as coded;
`keepSpec` is the claim's description of the kept set.) -/
theorem C9_filter_window (today cutoff : PDate) (rs : List RawRecord) :
    filterWindow today cutoff rs = rs.filter (keepSpec today cutoff) := by
  induction rs with
  | nil => rfl
  | cons r rs ih =>
    unfold filterWindow
    rcases hd : r.dateISO with _ | s
    · simpa [List.filter, keepSpec, hd] using ih
    · rcases hp : parseDateISO s with _ | d
      · simpa [List.filter, keepSpec, hd, hp] using ih
      · by_cases hw : (dateLe today d && dateLe d cutoff) = true
        · simpa [List.filter, keepSpec, hd, hp, hw] using ih
        · simp only [Bool.not_eq_true] at hw
          simpa [List.filter, keepSpec, hd, hp, hw] using ih

/-! ## C2: coordinate preservation on venues -/

/-- C2 counterexample: a stored latitude of exactly 0 is non-null, yet
`elif coordinates and not venue.latitude` treats the float 0.0 as "lacking
coordinates": upserting the (name, city) key with different coordinates
overwrites the venue's latitude, longitude, display name and approximate
flag in place. -/
theorem C2_counterexample :
    (getOrCreateVenue
      ⟨⟨[], [⟨"V", "SF", some 0, some 10, some "D", false, false⟩], [], []⟩, [], [], []⟩
      "V" "SF" (some ⟨5, 6, "E", true⟩)).db.venues =
    [⟨"V", "SF", some 5, some 6, some "E", true, false⟩] := by
  decide

/-- C2 (amended): for every venue already stored with a TRUTHY latitude
(non-null and nonzero -- the guard is Python float truthiness, so a stored
latitude of exactly 0.0 can still be overwritten), every subsequent
`get_or_create_venue` call -- with any coordinates, different ones or a
no-result `none` -- leaves that venue row entirely unchanged in place
(latitude, longitude, display name, approximate flag and all other fields);
coordinates are attached only to a row whose stored latitude is falsy. -/
theorem C2_coord_preserved (st : UState) (name city : String) (coords : Option Coords)
    (i : Nat) (v : VenueRow) (l : Rat)
    (hget : st.db.venues[i]? = some v) (hlat : v.latitude = some l) (hl : l ≠ 0) :
    (getOrCreateVenue st name city coords).db.venues[i]? = some v := by
  have hv : latTruthy v.latitude = true := by simp [latTruthy, hlat, hl]
  unfold getOrCreateVenue
  by_cases hc : (name, city) ∈ st.venueCache
  · simp [hc, hget]
  · by_cases hf : st.db.venues.any (venueMatch name city) = true
    · cases coords with
      | some c =>
        simpa [hc, hf] using
          updateFirst_getElem_truthy (venueMatch name city) c st.db.venues i v hget hv
      | none => simp [hc, hf, hget]
    · cases coords with
      | some c => simpa [hc, hf] using getElem?_append_of_some st.db.venues _ i v hget
      | none => simpa [hc, hf] using getElem?_append_of_some st.db.venues _ i v hget

/-- C2 witness: a concrete venue with truthy coordinates survives an upsert of
its key carrying different coordinates. -/
theorem C2_witness :
    (getOrCreateVenue
      ⟨⟨[], [⟨"W", "SF", some 1, some 2, some "D", false, false⟩], [], []⟩, [], [], []⟩
      "W" "SF" (some ⟨7, 8, "E", true⟩)).db.venues[0]? =
    some ⟨"W", "SF", some 1, some 2, some "D", false, false⟩ :=
  C2_coord_preserved _ "W" "SF" (some ⟨7, 8, "E", true⟩) 0
    ⟨"W", "SF", some 1, some 2, some "D", false, false⟩ 1 rfl rfl (by decide)

/-! ## C4: TBA venues -/

/-- Any geocode call on a name containing the case-sensitive substring "TBA"
or "TBD" makes zero network requests. -/
theorem geocodeVenue_tba_calls (provider : String → NetResp)
    (cache : List (String × Coords)) (venue city : String)
    (h : containsStr "TBA" venue = true ∨ containsStr "TBD" venue = true) :
    (geocodeVenue provider cache venue city).calls = 0 := by
  unfold geocodeVenue
  rcases hl : alookup (venue ++ "|" ++ city) cache with _ | c
  · have hb : (containsStr "TBA" venue || containsStr "TBD" venue) = true := by
      rcases h with h | h <;> simp [h]
    simp [hl, hb]
  · simp [hl]

/-- C4 counterexample: is_tba is derived case-insensitively, but the geocode
skips are case-sensitive (`'TBA' in venue_name`, `'TBD' in venue_name`,
`'TBA' not in venue_name`): the venue name "tba venue" is flagged TBA, yet
processing it issues two network requests (primary plus city fallback). -/
theorem C4_counterexample :
    hasTBAci "tba venue" = true ∧
    (resolveCoords (fun _ => NetResp.ok []) ⟨[], []⟩
      { emptyRec with venue := some "tba venue" }).calls = 2 := by
  decide

/-- C4 (amended): (1) a created venue whose name contains "TBA" or "TBD" in
ANY letter case is flagged `is_tba = true`; (2) the pipeline issues zero
geocoding network requests for a venue name containing the CASE-SENSITIVE
substring "TBA" or "TBD" (the orchestrator skips names containing "TBA";
`geocode_venue` returns None before any request for names containing "TBA" or
"TBD"); a name containing only a differently-cased variant (e.g. "tba") is
still geocoded (see the counterexample). -/
theorem C4_tba (provider : String → NetResp) :
    (∀ (st : UState) (name city : String) (coords : Option Coords),
      name ≠ "" → hasTBAci name = true →
      (name, city) ∉ st.venueCache → st.db.venues.any (venueMatch name city) = false →
      ∃ v : VenueRow, (getOrCreateVenue st name city coords).db.venues = st.db.venues ++ [v] ∧
        v.is_tba = true ∧ v.name = name ∧ v.city = city) ∧
    (∀ (ctx : GeoCtx) (r : RawRecord) (vn : String),
      r.venue = some vn →
      (containsStr "TBA" vn = true ∨ containsStr "TBD" vn = true) →
      (resolveCoords provider ctx r).calls = 0) := by
  constructor
  · intro st name city coords hne htba hc hf
    have htb : (name != "" && hasTBAci name) = true := by
      simp [htba, bne_iff_ne, hne]
    cases coords with
    | none =>
      refine ⟨{ name := name, city := city, latitude := none, longitude := none,
                display_name := none, is_approximate := false,
                is_tba := name != "" && hasTBAci name }, ?_, ?_, rfl, rfl⟩
      · simp [getOrCreateVenue, hc, hf]
      · simp [htb]
    | some c =>
      refine ⟨{ name := name, city := city, latitude := some c.lat, longitude := some c.lon,
                display_name := some c.display_name, is_approximate := c.approximate,
                is_tba := name != "" && hasTBAci name }, ?_, ?_, rfl, rfl⟩
      · simp [getOrCreateVenue, hc, hf, applyCoords]
      · simp [htb]
  · intro ctx r vn hv htbd
    unfold resolveCoords
    rw [hv]
    by_cases hg : (vn != "" && !containsStr "TBA" vn) = true
    · simp only [hg, if_true]
      rcases hl : alookup (vn ++ "|" ++ r.city.getD "San Francisco") ctx.vcache with _ | c
      · rcases hr : (geocodeVenue provider ctx.gcache vn (r.city.getD "San Francisco")).result
          with _ | c2 <;>
          simp [hl, hr, geocodeVenue_tba_calls provider ctx.gcache vn _ htbd]
      · simp [hl]
    · simp only [Bool.not_eq_true] at hg
      simp [hg]

/-- C4 witness: a created "Club TBA" venue is flagged, and a "Venue TBD"
record resolves with zero network requests. -/
theorem C4_witness :
    (∃ v : VenueRow,
      (getOrCreateVenue (freshUpdater emptyDB) "Club TBA" "SF" none).db.venues =
        (freshUpdater emptyDB).db.venues ++ [v] ∧
      v.is_tba = true ∧ v.name = "Club TBA" ∧ v.city = "SF") ∧
    (resolveCoords (fun _ => NetResp.err) ⟨[], []⟩
      { emptyRec with venue := some "Venue TBD" }).calls = 0 :=
  ⟨(C4_tba (fun _ => NetResp.err)).1 (freshUpdater emptyDB) "Club TBA" "SF" none
      (by decide) (by decide) (by decide) (by decide),
   (C4_tba (fun _ => NetResp.err)).2 ⟨[], []⟩ _ "Venue TBD" rfl (Or.inr (by decide))⟩

/-! ## C7: rollback granularity in the processing loop -/

/-- C7 counterexample: with records r1 (well-formed, creates an event) and r2
(unparseable date, raises inside `update_or_create_event`), the rollback after
r2's failure discards r1's still-uncommitted insert as well: the run over
[r1, r2] leaves the store empty, although the run over [r1] alone stores one
event.  The run over [r2, r1] stores one event: a failure does not abort
subsequent records. -/
theorem C7_counterexample :
    (runLoop (fun _ => NetResp.ok [])
      [{ emptyRec with title := some "A", dateISO := some "2025-09-01" }]
      emptyDB ⟨[], []⟩).events.length = 1 ∧
    (runLoop (fun _ => NetResp.ok [])
      [{ emptyRec with title := some "A", dateISO := some "2025-09-01" },
       { emptyRec with title := some "B", dateISO := some "garbage" }]
      emptyDB ⟨[], []⟩).events.length = 0 ∧
    (runLoop (fun _ => NetResp.ok [])
      [{ emptyRec with title := some "B", dateISO := some "garbage" },
       { emptyRec with title := some "A", dateISO := some "2025-09-01" }]
      emptyDB ⟨[], []⟩).events.length = 1 := by
  decide

/-- C7 (amended): a record whose processing fails (its date string raises in
`strptime`) triggers `session.rollback()`, which resets the session to the
LAST COMMITTED state -- discarding every uncommitted change of the records
processed since the previous batch commit, not only the failing record's --
and processing continues with the remaining records. -/
theorem C7_rollback (provider : String → NetResp) (os : OrchState) (r : RawRecord)
    (rest : List RawRecord) (s : String)
    (hv : r.venue = none) (hd : r.dateISO = some s) (hp : parseDateISO s = none) :
    (r :: rest).foldl (loopStep provider) os =
      rest.foldl (loopStep provider)
        ⟨os.committed, { os.sess with db := os.committed }, os.geo, os.idx + 1⟩ := by
  have hro : resolveCoords provider os.geo r = ⟨os.geo, none, 0⟩ := by
    unfold resolveCoords
    rw [hv]
  have hu : updateOrCreateEvent os.sess r none = none := by
    simp [updateOrCreateEvent, recDate?, hd, hp]
  rw [List.foldl_cons]
  congr 1
  simp [loopStep, hro, hu]

/-- C7 witness: the rollback equation at a concrete failing record. -/
theorem C7_witness :
    [{ emptyRec with title := some "B", dateISO := some "garbage" }].foldl
      (loopStep (fun _ => NetResp.ok []))
      ⟨emptyDB, freshUpdater emptyDB, ⟨[], []⟩, 0⟩ =
    ⟨emptyDB, { freshUpdater emptyDB with db := emptyDB }, ⟨[], []⟩, 1⟩ :=
  C7_rollback (fun _ => NetResp.ok []) ⟨emptyDB, freshUpdater emptyDB, ⟨[], []⟩, 0⟩
    _ [] "garbage" rfl rfl (by decide)

/-! ## Frame lemmas for the updater operations -/

theorem getOrCreateVenue_events (st : UState) (n c : String) (co : Option Coords) :
    (getOrCreateVenue st n c co).db.events = st.db.events := by
  unfold getOrCreateVenue
  by_cases hc : (n, c) ∈ st.venueCache
  · simp [hc]
  · by_cases hf : st.db.venues.any (venueMatch n c) = true
    · cases co <;> simp [hc, hf]
    · cases co <;> simp [hc, hf]

theorem getOrCreateVenue_genres (st : UState) (n c : String) (co : Option Coords) :
    (getOrCreateVenue st n c co).db.genres = st.db.genres := by
  unfold getOrCreateVenue
  by_cases hc : (n, c) ∈ st.venueCache
  · simp [hc]
  · by_cases hf : st.db.venues.any (venueMatch n c) = true
    · cases co <;> simp [hc, hf]
    · cases co <;> simp [hc, hf]

theorem getOrCreateVenue_promoters (st : UState) (n c : String) (co : Option Coords) :
    (getOrCreateVenue st n c co).db.promoters = st.db.promoters := by
  unfold getOrCreateVenue
  by_cases hc : (n, c) ∈ st.venueCache
  · simp [hc]
  · by_cases hf : st.db.venues.any (venueMatch n c) = true
    · cases co <;> simp [hc, hf]
    · cases co <;> simp [hc, hf]

theorem getOrCreateVenue_genreCache (st : UState) (n c : String) (co : Option Coords) :
    (getOrCreateVenue st n c co).genreCache = st.genreCache := by
  unfold getOrCreateVenue
  by_cases hc : (n, c) ∈ st.venueCache
  · simp [hc]
  · by_cases hf : st.db.venues.any (venueMatch n c) = true
    · cases co <;> simp [hc, hf]
    · cases co <;> simp [hc, hf]

theorem getOrCreateVenue_promoterCache (st : UState) (n c : String) (co : Option Coords) :
    (getOrCreateVenue st n c co).promoterCache = st.promoterCache := by
  unfold getOrCreateVenue
  by_cases hc : (n, c) ∈ st.venueCache
  · simp [hc]
  · by_cases hf : st.db.venues.any (venueMatch n c) = true
    · cases co <;> simp [hc, hf]
    · cases co <;> simp [hc, hf]

theorem getOrCreateGenre_events (st : UState) (g : String) :
    (getOrCreateGenre st g).db.events = st.db.events := by
  unfold getOrCreateGenre
  by_cases hc : g ∈ st.genreCache
  · simp [hc]
  · by_cases hf : g ∈ st.db.genres <;> simp [hc, hf]

theorem getOrCreateGenre_venues (st : UState) (g : String) :
    (getOrCreateGenre st g).db.venues = st.db.venues := by
  unfold getOrCreateGenre
  by_cases hc : g ∈ st.genreCache
  · simp [hc]
  · by_cases hf : g ∈ st.db.genres <;> simp [hc, hf]

theorem getOrCreateGenre_promoters (st : UState) (g : String) :
    (getOrCreateGenre st g).db.promoters = st.db.promoters := by
  unfold getOrCreateGenre
  by_cases hc : g ∈ st.genreCache
  · simp [hc]
  · by_cases hf : g ∈ st.db.genres <;> simp [hc, hf]

theorem getOrCreateGenre_venueCache (st : UState) (g : String) :
    (getOrCreateGenre st g).venueCache = st.venueCache := by
  unfold getOrCreateGenre
  by_cases hc : g ∈ st.genreCache
  · simp [hc]
  · by_cases hf : g ∈ st.db.genres <;> simp [hc, hf]

theorem getOrCreateGenre_promoterCache (st : UState) (g : String) :
    (getOrCreateGenre st g).promoterCache = st.promoterCache := by
  unfold getOrCreateGenre
  by_cases hc : g ∈ st.genreCache
  · simp [hc]
  · by_cases hf : g ∈ st.db.genres <;> simp [hc, hf]

theorem getOrCreatePromoter_events (st : UState) (p : String) :
    (getOrCreatePromoter st p).db.events = st.db.events := by
  unfold getOrCreatePromoter
  by_cases hc : p ∈ st.promoterCache
  · simp [hc]
  · by_cases hf : p ∈ st.db.promoters <;> simp [hc, hf]

theorem getOrCreatePromoter_venues (st : UState) (p : String) :
    (getOrCreatePromoter st p).db.venues = st.db.venues := by
  unfold getOrCreatePromoter
  by_cases hc : p ∈ st.promoterCache
  · simp [hc]
  · by_cases hf : p ∈ st.db.promoters <;> simp [hc, hf]

theorem getOrCreatePromoter_genres (st : UState) (p : String) :
    (getOrCreatePromoter st p).db.genres = st.db.genres := by
  unfold getOrCreatePromoter
  by_cases hc : p ∈ st.promoterCache
  · simp [hc]
  · by_cases hf : p ∈ st.db.promoters <;> simp [hc, hf]

theorem getOrCreatePromoter_venueCache (st : UState) (p : String) :
    (getOrCreatePromoter st p).venueCache = st.venueCache := by
  unfold getOrCreatePromoter
  by_cases hc : p ∈ st.promoterCache
  · simp [hc]
  · by_cases hf : p ∈ st.db.promoters <;> simp [hc, hf]

theorem getOrCreatePromoter_genreCache (st : UState) (p : String) :
    (getOrCreatePromoter st p).genreCache = st.genreCache := by
  unfold getOrCreatePromoter
  by_cases hc : p ∈ st.promoterCache
  · simp [hc]
  · by_cases hf : p ∈ st.db.promoters <;> simp [hc, hf]

theorem foldlGenre_events (gs : List String) (st : UState) :
    (gs.foldl getOrCreateGenre st).db.events = st.db.events := by
  induction gs generalizing st with
  | nil => rfl
  | cons g gs ih => rw [List.foldl_cons, ih, getOrCreateGenre_events]

theorem foldlGenre_venues (gs : List String) (st : UState) :
    (gs.foldl getOrCreateGenre st).db.venues = st.db.venues := by
  induction gs generalizing st with
  | nil => rfl
  | cons g gs ih => rw [List.foldl_cons, ih, getOrCreateGenre_venues]

theorem foldlGenre_promoters (gs : List String) (st : UState) :
    (gs.foldl getOrCreateGenre st).db.promoters = st.db.promoters := by
  induction gs generalizing st with
  | nil => rfl
  | cons g gs ih => rw [List.foldl_cons, ih, getOrCreateGenre_promoters]

theorem foldlGenre_venueCache (gs : List String) (st : UState) :
    (gs.foldl getOrCreateGenre st).venueCache = st.venueCache := by
  induction gs generalizing st with
  | nil => rfl
  | cons g gs ih => rw [List.foldl_cons, ih, getOrCreateGenre_venueCache]

theorem foldlGenre_promoterCache (gs : List String) (st : UState) :
    (gs.foldl getOrCreateGenre st).promoterCache = st.promoterCache := by
  induction gs generalizing st with
  | nil => rfl
  | cons g gs ih => rw [List.foldl_cons, ih, getOrCreateGenre_promoterCache]

theorem foldlPromoter_events (ps : List String) (st : UState) :
    (ps.foldl getOrCreatePromoter st).db.events = st.db.events := by
  induction ps generalizing st with
  | nil => rfl
  | cons p ps ih => rw [List.foldl_cons, ih, getOrCreatePromoter_events]

theorem foldlPromoter_venues (ps : List String) (st : UState) :
    (ps.foldl getOrCreatePromoter st).db.venues = st.db.venues := by
  induction ps generalizing st with
  | nil => rfl
  | cons p ps ih => rw [List.foldl_cons, ih, getOrCreatePromoter_venues]

theorem foldlPromoter_genres (ps : List String) (st : UState) :
    (ps.foldl getOrCreatePromoter st).db.genres = st.db.genres := by
  induction ps generalizing st with
  | nil => rfl
  | cons p ps ih => rw [List.foldl_cons, ih, getOrCreatePromoter_genres]

theorem foldlPromoter_venueCache (ps : List String) (st : UState) :
    (ps.foldl getOrCreatePromoter st).venueCache = st.venueCache := by
  induction ps generalizing st with
  | nil => rfl
  | cons p ps ih => rw [List.foldl_cons, ih, getOrCreatePromoter_venueCache]

theorem foldlPromoter_genreCache (ps : List String) (st : UState) :
    (ps.foldl getOrCreatePromoter st).genreCache = st.genreCache := by
  induction ps generalizing st with
  | nil => rfl
  | cons p ps ih => rw [List.foldl_cons, ih, getOrCreatePromoter_genreCache]

theorem venueStep_events (st : UState) (r : RawRecord) (co : Option Coords) :
    (venueStep st r co).db.events = st.db.events := by
  unfold venueStep
  by_cases hv : strTruthy r.venue = true <;> simp [hv, getOrCreateVenue_events]

theorem venueStep_genres (st : UState) (r : RawRecord) (co : Option Coords) :
    (venueStep st r co).db.genres = st.db.genres := by
  unfold venueStep
  by_cases hv : strTruthy r.venue = true <;> simp [hv, getOrCreateVenue_genres]

theorem venueStep_promoters (st : UState) (r : RawRecord) (co : Option Coords) :
    (venueStep st r co).db.promoters = st.db.promoters := by
  unfold venueStep
  by_cases hv : strTruthy r.venue = true <;> simp [hv, getOrCreateVenue_promoters]

theorem venueStep_genreCache (st : UState) (r : RawRecord) (co : Option Coords) :
    (venueStep st r co).genreCache = st.genreCache := by
  unfold venueStep
  by_cases hv : strTruthy r.venue = true <;> simp [hv, getOrCreateVenue_genreCache]

theorem venueStep_promoterCache (st : UState) (r : RawRecord) (co : Option Coords) :
    (venueStep st r co).promoterCache = st.promoterCache := by
  unfold venueStep
  by_cases hv : strTruthy r.venue = true <;> simp [hv, getOrCreateVenue_promoterCache]

theorem attachSteps_events (st : UState) (r : RawRecord) (co : Option Coords) :
    (attachSteps st r co).db.events = st.db.events := by
  rw [attachSteps, foldlPromoter_events, foldlGenre_events, venueStep_events]

theorem attachSteps_venues (st : UState) (r : RawRecord) (co : Option Coords) :
    (attachSteps st r co).db.venues = (venueStep st r co).db.venues := by
  rw [attachSteps, foldlPromoter_venues, foldlGenre_venues]

theorem attachSteps_genres (st : UState) (r : RawRecord) (co : Option Coords) :
    (attachSteps st r co).db.genres =
      ((dedupNE r.genres).foldl getOrCreateGenre (venueStep st r co)).db.genres := by
  rw [attachSteps, foldlPromoter_genres]

/-- Characterization of the events table after `upsertCore`: an in-place
update of the first (title, date) match, or an appended new event. -/
theorem upsertCore_events (st : UState) (r : RawRecord) (coords : Option Coords)
    (d : Option PDate) :
    (upsertCore st r coords d).db.events =
      if st.db.events.any (eventMatch r.title d) then
        updateFirst (eventMatch r.title d) (updE r (recVenueKey r)) st.db.events
      else st.db.events ++ [newE r (recVenueKey r) d] := by
  unfold upsertCore
  by_cases hm : st.db.events.any (eventMatch r.title d) = true <;>
    simp [hm, attachSteps_events]

/-! ## C3: the update path replaces mutable fields and nothing else -/

/-- C3: re-upserting a record whose (title, date) key matches a stored event
(the first match of the query, given by the `pre`/`e`/`post` decomposition)
rewrites that event in place to `updE r (recVenueKey r) e`: url, time range,
price, age restriction, venue reference, and the full genre and promoter sets
become exactly the incoming record's values (genres: the record's list
deduplicated with empties dropped -- NOT a union with the old set, which is
discarded; promoters: the record's list with empties dropped), while the
event's extra links, original raw payload, title, date, day label, hidden
flag and source are untouched, and no event row is added or removed. -/
theorem C3_update_replaces (st : UState) (r : RawRecord) (coords : Option Coords)
    (d : Option PDate) (pre post : List EventRow) (e : EventRow)
    (hd : recDate? r = some d)
    (hsplit : st.db.events = pre ++ e :: post)
    (hpre : ∀ x ∈ pre, eventMatch r.title d x = false)
    (he : eventMatch r.title d e = true) :
    ∃ st1, updateOrCreateEvent st r coords = some st1 ∧
      st1.db.events = pre ++ updE r (recVenueKey r) e :: post := by
  refine ⟨upsertCore st r coords d, ?_, ?_⟩
  · rw [updateOrCreateEvent, hd]
    rfl
  · have hm : st.db.events.any (eventMatch r.title d) = true := by
      rw [hsplit]
      exact List.any_eq_true.mpr ⟨e, by simp, he⟩
    rw [upsertCore_events, if_pos hm, hsplit,
      updateFirst_append (eventMatch r.title d) (updE r (recVenueKey r)) pre e post hpre he]

/-- The stored event used by the C3 witness. -/
def c3stored : EventRow :=
  ⟨"T", some "old", false, none, none, none, none, some "$5", none,
   ["Old"], ["OldP"], [("x", "y")], none, "19hz"⟩

/-- The incoming record used by the C3 witness. -/
def c3rec : RawRecord := { emptyRec with
  title := some "T", url := some "u",
  genres := ["Techno", "House"], promoters := ["P"] }

/-- C3 witness: a concrete stored event updated by a matching record keeps its
extra links and payload and swaps the mutable fields, genres and promoters. -/
theorem C3_witness :
    ∃ st1,
      updateOrCreateEvent ⟨⟨[c3stored], [], [], []⟩, [], [], []⟩ c3rec none = some st1 ∧
      st1.db.events = [] ++ updE c3rec (recVenueKey c3rec) c3stored :: [] :=
  C3_update_replaces ⟨⟨[c3stored], [], [], []⟩, [], [], []⟩ c3rec none none [] []
    c3stored rfl rfl (by intro x hx; cases hx) (by decide)

/-! ## C10: duplicate names in attached genre/promoter sets -/

/-- `update_or_create_event` together with the flush-time enforcement of the
association tables' composite primary keys.  `event_genres` and
`event_promoters` (src/models.py 15-27) have PRIMARY KEY (event_id, genre_id)
and (event_id, promoter_id): the new association rows written for a record are
those of the one event it touches, whose attached name lists are
`dedupNE r.genres` and `filterNE r.promoters` (see `updE`/`newE`), so the
INSERT of a duplicate pair raises IntegrityError -- inside the same call at
`session.flush()` (line 424) on the create path, at the next flush or commit
on the update path -- and the record's changes are rolled back, never reaching
the store.  `some` is the record's persisted outcome; `none` means its
changes are rejected (date `ValueError` or IntegrityError), attributed to the
record that introduced the duplicate. -/
def updateOrCreateEventChecked (st : UState) (r : RawRecord) (coords : Option Coords) :
    Option UState :=
  match updateOrCreateEvent st r coords with
  | none => none
  | some st1 =>
    if (dedupNE r.genres).Nodup ∧ (filterNE r.promoters).Nodup then some st1 else none

/-- C10: for every event persisted or updated by the Upsert Engine, the
attached genre and promoter name sets contain no duplicates, even when the
incoming record's genre or promoter list repeats a name.  A repeated genre
name is deduplicated by `set()` before attaching; a repeated promoter name
cannot persist at all: its second association row violates the
`event_promoters` composite primary key, the flush raises IntegrityError and
the record's changes are rolled back.  Part 1: a store whose events all carry
duplicate-free genre and promoter names still does after any engine operation
that persists.  Part 2: a record whose attached promoter list carries a
duplicate never persists. -/
theorem C10_nodup_invariant :
    (∀ (st : UState) (r : RawRecord) (coords : Option Coords) (st1 : UState),
      (∀ e ∈ st.db.events, e.genres.Nodup ∧ e.promoters.Nodup) →
      updateOrCreateEventChecked st r coords = some st1 →
      ∀ e ∈ st1.db.events, e.genres.Nodup ∧ e.promoters.Nodup) ∧
    (∀ (st : UState) (r : RawRecord) (coords : Option Coords),
      ¬ (filterNE r.promoters).Nodup →
      updateOrCreateEventChecked st r coords = none) := by
  constructor
  · intro st r coords st1 hin hu
    unfold updateOrCreateEventChecked at hu
    cases he : updateOrCreateEvent st r coords with
    | none => rw [he] at hu; cases hu
    | some st2 =>
      rw [he] at hu
      have hu2 : (if (dedupNE r.genres).Nodup ∧ (filterNE r.promoters).Nodup
          then some st2 else none) = some st1 := hu
      by_cases hchk : (dedupNE r.genres).Nodup ∧ (filterNE r.promoters).Nodup
      · rw [if_pos hchk] at hu2
        injection hu2 with hu1
        subst hu1
        have hd : ∃ d, recDate? r = some d ∧ st2 = upsertCore st r coords d := by
          unfold updateOrCreateEvent at he
          cases hr : recDate? r with
          | none => rw [hr] at he; cases he
          | some d =>
            rw [hr] at he
            exact ⟨d, rfl, by injection he with h; exact h.symm⟩
        obtain ⟨d, _, hst⟩ := hd
        intro e hemem
        rw [hst, upsertCore_events] at hemem
        by_cases hm : st.db.events.any (eventMatch r.title d) = true
        · rw [if_pos hm] at hemem
          rcases updateFirst_mem (eventMatch r.title d) (updE r (recVenueKey r))
              st.db.events e hemem with h | ⟨y, _, hy⟩
          · exact hin e h
          · rw [hy]
            exact ⟨List.nodup_dedup _, hchk.2⟩
        · rw [if_neg hm] at hemem
          rcases List.mem_append.mp hemem with h | h
          · exact hin e h
          · have he2 : e = newE r (recVenueKey r) d := by simpa using h
            rw [he2]
            exact ⟨List.nodup_dedup _, hchk.2⟩
      · rw [if_neg hchk] at hu2
        cases hu2
  · intro st r coords hdup
    unfold updateOrCreateEventChecked
    cases he : updateOrCreateEvent st r coords with
    | none => rfl
    | some st2 =>
      have hn : ¬((dedupNE r.genres).Nodup ∧ (filterNE r.promoters).Nodup) :=
        fun hchk => hdup hchk.2
      show (if (dedupNE r.genres).Nodup ∧ (filterNE r.promoters).Nodup
          then some st2 else none) = none
      rw [if_neg hn]

/-- The incoming record used by the C10 witness: a duplicated genre name and
a single promoter. -/
def c10rec : RawRecord := { emptyRec with
  title := some "E", genres := ["House", "House"], promoters := ["P"] }

/-- A record listing the same promoter name twice, for the C10 witness. -/
def c10dup : RawRecord := { emptyRec with
  title := some "E", promoters := ["X", "X"] }

/-- C10 witness: the concrete event persisted from `c10rec` (genre list
["House", "House"]) carries duplicate-free attached names, and the
duplicate-promoter record `c10dup` does not persist. -/
theorem C10_witness :
    ((newE c10rec (recVenueKey c10rec) none).genres.Nodup ∧
     (newE c10rec (recVenueKey c10rec) none).promoters.Nodup) ∧
    updateOrCreateEventChecked (freshUpdater emptyDB) c10dup none = none :=
  ⟨C10_nodup_invariant.1 (freshUpdater emptyDB) c10rec none
      (upsertCore (freshUpdater emptyDB) c10rec none none) (by decide) (by decide)
      (newE c10rec (recVenueKey c10rec) none) (by decide),
   C10_nodup_invariant.2 (freshUpdater emptyDB) c10dup none (by decide)⟩

/-! ## C1: identity keys and cache soundness -/

/-- The (name, city) identity keys of the venues table. -/
def venueKeys (db : DB) : List (String × String) :=
  db.venues.map (fun v => (v.name, v.city))

/-- The (title, date) identity keys of the events table. -/
def eventKeys (db : DB) : List (String × Option PDate) :=
  db.events.map (fun e => (e.title, e.date))

/-- The four row counts (events, venues, genres, promoters). -/
def counts (db : DB) : Nat × Nat × Nat × Nat :=
  (db.events.length, db.venues.length, db.genres.length, db.promoters.length)

/-- All identity keys that processing record `r` resolves are already backed
by rows of `db` (trivially true when the record's date fails to parse, since
then the engine raises before touching the store). -/
def recKeysIn (db : DB) (r : RawRecord) : Prop :=
  match recDate? r with
  | none => True
  | some d =>
    (∀ t, r.title = some t → (t, d) ∈ eventKeys db) ∧
    (strTruthy r.venue = true →
      (r.venue.getD "", r.city.getD "San Francisco") ∈ venueKeys db) ∧
    (∀ g ∈ dedupNE r.genres, g ∈ db.genres) ∧
    (∀ p ∈ filterNE r.promoters, p ∈ db.promoters)

/-- Soundness of the updater's in-memory caches: every cached identity key is
backed by a row (holds for a fresh updater and is preserved by every
operation). -/
def cacheOK (st : UState) : Prop :=
  (∀ k ∈ st.venueCache, k ∈ venueKeys st.db) ∧
  (∀ g ∈ st.genreCache, g ∈ st.db.genres) ∧
  (∀ p ∈ st.promoterCache, p ∈ st.db.promoters)

theorem cacheOK_fresh (db : DB) : cacheOK (freshUpdater db) :=
  ⟨fun _ h => absurd h (List.not_mem_nil _), fun _ h => absurd h (List.not_mem_nil _),
   fun _ h => absurd h (List.not_mem_nil _)⟩

theorem any_venueMatch_iff (n c : String) (l : List VenueRow) :
    l.any (venueMatch n c) = true ↔ (n, c) ∈ l.map (fun v => (v.name, v.city)) := by
  simp only [List.any_eq_true, venueMatch, Bool.and_eq_true, beq_iff_eq, List.mem_map]
  constructor
  · rintro ⟨v, hv, h1, h2⟩
    exact ⟨v, hv, by rw [h1, h2]⟩
  · rintro ⟨v, hv, h⟩
    injection h with h1 h2
    exact ⟨v, hv, h1, h2⟩

theorem any_eventMatch_iff (t : String) (d : Option PDate) (l : List EventRow) :
    l.any (eventMatch (some t) d) = true ↔ (t, d) ∈ l.map (fun e => (e.title, e.date)) := by
  simp only [List.any_eq_true, eventMatch, Bool.and_eq_true, beq_iff_eq, List.mem_map]
  constructor
  · rintro ⟨e, he, h1, h2⟩
    exact ⟨e, he, by rw [h1, h2]⟩
  · rintro ⟨e, he, h⟩
    injection h with h1 h2
    exact ⟨e, he, h1, h2⟩

theorem coordF_keys (c : Coords) (p : VenueRow → Bool) (l : List VenueRow) :
    (updateFirst p (coordF c) l).map (fun v => (v.name, v.city)) =
      l.map (fun v => (v.name, v.city)) := by
  refine updateFirst_map p (coordF c) _ ?_ l
  intro x
  by_cases h : latTruthy x.latitude = true <;> simp [coordF, h, applyCoords]

/-- The venue keys after `get_or_create_venue`: every existing key survives. -/
theorem getOrCreateVenue_keys_mono (st : UState) (n c : String) (co : Option Coords)
    (k : String × String) (hk : k ∈ venueKeys st.db) :
    k ∈ venueKeys (getOrCreateVenue st n c co).db := by
  unfold getOrCreateVenue
  by_cases hc : (n, c) ∈ st.venueCache
  · simpa [hc] using hk
  · by_cases hf : st.db.venues.any (venueMatch n c) = true
    · cases co with
      | some cc => simpa [hc, hf, venueKeys, coordF_keys] using hk
      | none => simpa [hc, hf] using hk
    · cases co with
      | some cc =>
        simp only [hc, hf, venueKeys] at hk ⊢
        simp only [if_neg, Bool.false_eq_true, if_false, List.map_append, List.mem_append]
        exact Or.inl hk
      | none =>
        simp only [hc, hf, venueKeys] at hk ⊢
        simp only [if_neg, Bool.false_eq_true, if_false, List.map_append, List.mem_append]
        exact Or.inl hk

/-- After `get_or_create_venue`, the requested key is backed by a row
(given sound caches). -/
theorem getOrCreateVenue_key_after (st : UState) (n c : String) (co : Option Coords)
    (hok : ∀ k ∈ st.venueCache, k ∈ venueKeys st.db) :
    (n, c) ∈ venueKeys (getOrCreateVenue st n c co).db := by
  unfold getOrCreateVenue
  by_cases hc : (n, c) ∈ st.venueCache
  · simpa [hc] using hok _ hc
  · by_cases hf : st.db.venues.any (venueMatch n c) = true
    · have hm : (n, c) ∈ venueKeys st.db := (any_venueMatch_iff n c st.db.venues).mp hf
      cases co with
      | some cc => simpa [hc, hf, venueKeys, coordF_keys] using hm
      | none => simpa [hc, hf] using hm
    · cases co with
      | some cc => simp [hc, hf, venueKeys, applyCoords]
      | none => simp [hc, hf, venueKeys]

/-- `get_or_create_venue` adds no venue row when its key is cached or backed. -/
theorem getOrCreateVenue_nogrow (st : UState) (n c : String) (co : Option Coords)
    (h : (n, c) ∈ st.venueCache ∨ (n, c) ∈ venueKeys st.db) :
    (getOrCreateVenue st n c co).db.venues.length = st.db.venues.length := by
  unfold getOrCreateVenue
  by_cases hc : (n, c) ∈ st.venueCache
  · simp [hc]
  · have hm : (n, c) ∈ venueKeys st.db := h.resolve_left hc
    have hf : st.db.venues.any (venueMatch n c) = true := (any_venueMatch_iff n c _).mpr hm
    cases co with
    | some cc => simp [hc, hf, updateFirst_length]
    | none => simp [hc, hf]

/-- Venue-cache soundness survives `get_or_create_venue`. -/
theorem getOrCreateVenue_cacheOKv (st : UState) (n c : String) (co : Option Coords)
    (hok : ∀ k ∈ st.venueCache, k ∈ venueKeys st.db) :
    ∀ k ∈ (getOrCreateVenue st n c co).venueCache,
      k ∈ venueKeys (getOrCreateVenue st n c co).db := by
  intro k hk
  by_cases hc : (n, c) ∈ st.venueCache
  · have he : getOrCreateVenue st n c co = st := by simp [getOrCreateVenue, hc]
    rw [he] at hk ⊢
    exact hok k hk
  · have hcache : (getOrCreateVenue st n c co).venueCache = (n, c) :: st.venueCache := by
      unfold getOrCreateVenue
      by_cases hf : st.db.venues.any (venueMatch n c) = true <;>
        cases co <;> simp [hc, hf]
    rw [hcache] at hk
    rcases List.mem_cons.mp hk with hk | hk
    · rw [hk]
      exact getOrCreateVenue_key_after st n c co hok
    · exact getOrCreateVenue_keys_mono st n c co k (hok k hk)

/-- Genre-table monotonicity under `get_or_create_genre`. -/
theorem getOrCreateGenre_mono (st : UState) (g x : String) (hx : x ∈ st.db.genres) :
    x ∈ (getOrCreateGenre st g).db.genres := by
  unfold getOrCreateGenre
  by_cases hc : g ∈ st.genreCache
  · simpa [hc] using hx
  · by_cases hf : g ∈ st.db.genres
    · simpa [hc, hf] using hx
    · simp only [hc, hf, if_neg, if_false]
      simp only [List.mem_append]
      exact Or.inl hx

/-- After `get_or_create_genre`, the requested name is backed by a row. -/
theorem getOrCreateGenre_after (st : UState) (g : String)
    (hok : g ∈ st.genreCache → g ∈ st.db.genres) :
    g ∈ (getOrCreateGenre st g).db.genres := by
  unfold getOrCreateGenre
  by_cases hc : g ∈ st.genreCache
  · simpa [hc] using hok hc
  · by_cases hf : g ∈ st.db.genres
    · simp [hc, hf]
    · simp [hc, hf]

/-- `get_or_create_genre` leaves the genre table unchanged when its name is
cached or backed. -/
theorem getOrCreateGenre_nogrow (st : UState) (g : String)
    (h : g ∈ st.genreCache ∨ g ∈ st.db.genres) :
    (getOrCreateGenre st g).db.genres = st.db.genres := by
  unfold getOrCreateGenre
  by_cases hc : g ∈ st.genreCache
  · simp [hc]
  · simp [hc, h.resolve_left hc]

/-- Genre-cache soundness survives `get_or_create_genre`. -/
theorem getOrCreateGenre_cacheOKg (st : UState) (g : String)
    (hok : ∀ x ∈ st.genreCache, x ∈ st.db.genres) :
    ∀ x ∈ (getOrCreateGenre st g).genreCache, x ∈ (getOrCreateGenre st g).db.genres := by
  intro x hx
  by_cases hc : g ∈ st.genreCache
  · have he : getOrCreateGenre st g = st := by simp [getOrCreateGenre, hc]
    rw [he] at hx ⊢
    exact hok x hx
  · have hcache : (getOrCreateGenre st g).genreCache = g :: st.genreCache := by
      unfold getOrCreateGenre
      by_cases hf : g ∈ st.db.genres <;> simp [hc, hf]
    rw [hcache] at hx
    rcases List.mem_cons.mp hx with hx | hx
    · rw [hx]
      exact getOrCreateGenre_after st g (fun h => absurd h hc)
    · exact getOrCreateGenre_mono st g x (hok x hx)

/-- Promoter-table monotonicity under `get_or_create_promoter`. -/
theorem getOrCreatePromoter_mono (st : UState) (p x : String) (hx : x ∈ st.db.promoters) :
    x ∈ (getOrCreatePromoter st p).db.promoters := by
  unfold getOrCreatePromoter
  by_cases hc : p ∈ st.promoterCache
  · simpa [hc] using hx
  · by_cases hf : p ∈ st.db.promoters
    · simpa [hc, hf] using hx
    · simp only [hc, hf, if_neg, if_false]
      simp only [List.mem_append]
      exact Or.inl hx

/-- After `get_or_create_promoter`, the requested name is backed by a row. -/
theorem getOrCreatePromoter_after (st : UState) (p : String)
    (hok : p ∈ st.promoterCache → p ∈ st.db.promoters) :
    p ∈ (getOrCreatePromoter st p).db.promoters := by
  unfold getOrCreatePromoter
  by_cases hc : p ∈ st.promoterCache
  · simpa [hc] using hok hc
  · by_cases hf : p ∈ st.db.promoters
    · simp [hc, hf]
    · simp [hc, hf]

/-- `get_or_create_promoter` leaves the promoter table unchanged when its name
is cached or backed. -/
theorem getOrCreatePromoter_nogrow (st : UState) (p : String)
    (h : p ∈ st.promoterCache ∨ p ∈ st.db.promoters) :
    (getOrCreatePromoter st p).db.promoters = st.db.promoters := by
  unfold getOrCreatePromoter
  by_cases hc : p ∈ st.promoterCache
  · simp [hc]
  · simp [hc, h.resolve_left hc]

/-- Promoter-cache soundness survives `get_or_create_promoter`. -/
theorem getOrCreatePromoter_cacheOKp (st : UState) (p : String)
    (hok : ∀ x ∈ st.promoterCache, x ∈ st.db.promoters) :
    ∀ x ∈ (getOrCreatePromoter st p).promoterCache,
      x ∈ (getOrCreatePromoter st p).db.promoters := by
  intro x hx
  by_cases hc : p ∈ st.promoterCache
  · have he : getOrCreatePromoter st p = st := by simp [getOrCreatePromoter, hc]
    rw [he] at hx ⊢
    exact hok x hx
  · have hcache : (getOrCreatePromoter st p).promoterCache = p :: st.promoterCache := by
      unfold getOrCreatePromoter
      by_cases hf : p ∈ st.db.promoters <;> simp [hc, hf]
    rw [hcache] at hx
    rcases List.mem_cons.mp hx with hx | hx
    · rw [hx]
      exact getOrCreatePromoter_after st p (fun h => absurd h hc)
    · exact getOrCreatePromoter_mono st p x (hok x hx)

/-! ## C1: fold-level and record-level lemmas -/

theorem foldlGenre_mono (gs : List String) (st : UState) (x : String)
    (hx : x ∈ st.db.genres) : x ∈ (gs.foldl getOrCreateGenre st).db.genres := by
  induction gs generalizing st with
  | nil => exact hx
  | cons g gs ih => exact ih _ (getOrCreateGenre_mono st g x hx)

theorem foldlGenre_cacheOKg (gs : List String) (st : UState)
    (hok : ∀ x ∈ st.genreCache, x ∈ st.db.genres) :
    ∀ x ∈ (gs.foldl getOrCreateGenre st).genreCache,
      x ∈ (gs.foldl getOrCreateGenre st).db.genres := by
  induction gs generalizing st with
  | nil => exact hok
  | cons g gs ih => exact ih _ (getOrCreateGenre_cacheOKg st g hok)

theorem foldlGenre_after (gs : List String) (st : UState)
    (hok : ∀ x ∈ st.genreCache, x ∈ st.db.genres) :
    ∀ g ∈ gs, g ∈ (gs.foldl getOrCreateGenre st).db.genres := by
  induction gs generalizing st with
  | nil => intro g hg; cases hg
  | cons g0 gs ih =>
    intro g hg
    rcases List.mem_cons.mp hg with h | h
    · subst h
      exact foldlGenre_mono gs _ g (getOrCreateGenre_after st g (hok g))
    · exact ih _ (getOrCreateGenre_cacheOKg st g0 hok) g h

theorem foldlGenre_nogrow (gs : List String) (st : UState)
    (h : ∀ g ∈ gs, g ∈ st.db.genres) :
    (gs.foldl getOrCreateGenre st).db.genres = st.db.genres := by
  induction gs generalizing st with
  | nil => rfl
  | cons g gs ih =>
    rw [List.foldl_cons]
    have hg : (getOrCreateGenre st g).db.genres = st.db.genres :=
      getOrCreateGenre_nogrow st g (Or.inr (h g (List.mem_cons_self g gs)))
    rw [ih (getOrCreateGenre st g)
        (by rw [hg]; intro g2 hg2; exact h g2 (List.mem_cons_of_mem g hg2)), hg]

theorem foldlPromoter_mono (ps : List String) (st : UState) (x : String)
    (hx : x ∈ st.db.promoters) : x ∈ (ps.foldl getOrCreatePromoter st).db.promoters := by
  induction ps generalizing st with
  | nil => exact hx
  | cons p ps ih => exact ih _ (getOrCreatePromoter_mono st p x hx)

theorem foldlPromoter_cacheOKp (ps : List String) (st : UState)
    (hok : ∀ x ∈ st.promoterCache, x ∈ st.db.promoters) :
    ∀ x ∈ (ps.foldl getOrCreatePromoter st).promoterCache,
      x ∈ (ps.foldl getOrCreatePromoter st).db.promoters := by
  induction ps generalizing st with
  | nil => exact hok
  | cons p ps ih => exact ih _ (getOrCreatePromoter_cacheOKp st p hok)

theorem foldlPromoter_after (ps : List String) (st : UState)
    (hok : ∀ x ∈ st.promoterCache, x ∈ st.db.promoters) :
    ∀ p ∈ ps, p ∈ (ps.foldl getOrCreatePromoter st).db.promoters := by
  induction ps generalizing st with
  | nil => intro p hp; cases hp
  | cons p0 ps ih =>
    intro p hp
    rcases List.mem_cons.mp hp with h | h
    · subst h
      exact foldlPromoter_mono ps _ p (getOrCreatePromoter_after st p (hok p))
    · exact ih _ (getOrCreatePromoter_cacheOKp st p0 hok) p h

theorem foldlPromoter_nogrow (ps : List String) (st : UState)
    (h : ∀ p ∈ ps, p ∈ st.db.promoters) :
    (ps.foldl getOrCreatePromoter st).db.promoters = st.db.promoters := by
  induction ps generalizing st with
  | nil => rfl
  | cons p ps ih =>
    rw [List.foldl_cons]
    have hp : (getOrCreatePromoter st p).db.promoters = st.db.promoters :=
      getOrCreatePromoter_nogrow st p (Or.inr (h p (List.mem_cons_self p ps)))
    rw [ih (getOrCreatePromoter st p)
        (by rw [hp]; intro p2 hp2; exact h p2 (List.mem_cons_of_mem p hp2)), hp]

/-- Cache soundness is preserved by each updater operation. -/
theorem getOrCreateVenue_cacheOK (st : UState) (n c : String) (co : Option Coords)
    (hok : cacheOK st) : cacheOK (getOrCreateVenue st n c co) := by
  obtain ⟨h1, h2, h3⟩ := hok
  refine ⟨getOrCreateVenue_cacheOKv st n c co h1, ?_, ?_⟩
  · rw [getOrCreateVenue_genreCache]
    intro g hg
    rw [getOrCreateVenue_genres]
    exact h2 g hg
  · rw [getOrCreateVenue_promoterCache]
    intro p hp
    rw [getOrCreateVenue_promoters]
    exact h3 p hp

theorem getOrCreateGenre_cacheOK (st : UState) (g : String) (hok : cacheOK st) :
    cacheOK (getOrCreateGenre st g) := by
  obtain ⟨h1, h2, h3⟩ := hok
  refine ⟨?_, getOrCreateGenre_cacheOKg st g h2, ?_⟩
  · rw [getOrCreateGenre_venueCache]
    intro k hk
    unfold venueKeys
    rw [getOrCreateGenre_venues]
    exact h1 k hk
  · rw [getOrCreateGenre_promoterCache]
    intro p hp
    rw [getOrCreateGenre_promoters]
    exact h3 p hp

theorem getOrCreatePromoter_cacheOK (st : UState) (p : String) (hok : cacheOK st) :
    cacheOK (getOrCreatePromoter st p) := by
  obtain ⟨h1, h2, h3⟩ := hok
  refine ⟨?_, ?_, getOrCreatePromoter_cacheOKp st p h3⟩
  · rw [getOrCreatePromoter_venueCache]
    intro k hk
    unfold venueKeys
    rw [getOrCreatePromoter_venues]
    exact h1 k hk
  · rw [getOrCreatePromoter_genreCache]
    intro g hg
    rw [getOrCreatePromoter_genres]
    exact h2 g hg

theorem foldlGenre_cacheOK (gs : List String) (st : UState) (hok : cacheOK st) :
    cacheOK (gs.foldl getOrCreateGenre st) := by
  induction gs generalizing st with
  | nil => exact hok
  | cons g gs ih => exact ih _ (getOrCreateGenre_cacheOK st g hok)

theorem foldlPromoter_cacheOK (ps : List String) (st : UState) (hok : cacheOK st) :
    cacheOK (ps.foldl getOrCreatePromoter st) := by
  induction ps generalizing st with
  | nil => exact hok
  | cons p ps ih => exact ih _ (getOrCreatePromoter_cacheOK st p hok)

theorem venueStep_cacheOK (st : UState) (r : RawRecord) (co : Option Coords)
    (hok : cacheOK st) : cacheOK (venueStep st r co) := by
  unfold venueStep
  by_cases hv : strTruthy r.venue = true
  · simpa [hv] using getOrCreateVenue_cacheOK st _ _ co hok
  · simpa [hv] using hok

theorem attachSteps_cacheOK (st : UState) (r : RawRecord) (co : Option Coords)
    (hok : cacheOK st) : cacheOK (attachSteps st r co) :=
  foldlPromoter_cacheOK _ _ (foldlGenre_cacheOK _ _ (venueStep_cacheOK st r co hok))

/-- Replacing only the events list preserves cache soundness. -/
theorem cacheOK_events_irrel (st : UState) (evs : List EventRow) (hok : cacheOK st) :
    cacheOK { st with db := { st.db with events := evs } } := by
  obtain ⟨h1, h2, h3⟩ := hok
  exact ⟨h1, h2, h3⟩

theorem upsertCore_cacheOK (st : UState) (r : RawRecord) (co : Option Coords)
    (d : Option PDate) (hok : cacheOK st) : cacheOK (upsertCore st r co d) := by
  unfold upsertCore
  by_cases hm : st.db.events.any (eventMatch r.title d) = true <;>
    simp only [hm, Bool.false_eq_true, if_true, if_false] <;>
    exact cacheOK_events_irrel _ _ (attachSteps_cacheOK st r co hok)

/-! ### upsertCore characterizations and monotonicity -/

theorem upsertCore_venues (st : UState) (r : RawRecord) (co : Option Coords)
    (d : Option PDate) :
    (upsertCore st r co d).db.venues = (venueStep st r co).db.venues := by
  unfold upsertCore
  by_cases hm : st.db.events.any (eventMatch r.title d) = true <;>
    simp [hm, attachSteps_venues]

theorem upsertCore_genres (st : UState) (r : RawRecord) (co : Option Coords)
    (d : Option PDate) :
    (upsertCore st r co d).db.genres =
      ((dedupNE r.genres).foldl getOrCreateGenre (venueStep st r co)).db.genres := by
  unfold upsertCore
  by_cases hm : st.db.events.any (eventMatch r.title d) = true <;>
    simp [hm, attachSteps_genres]

theorem upsertCore_promoters (st : UState) (r : RawRecord) (co : Option Coords)
    (d : Option PDate) :
    (upsertCore st r co d).db.promoters = (attachSteps st r co).db.promoters := by
  unfold upsertCore
  by_cases hm : st.db.events.any (eventMatch r.title d) = true <;> simp [hm]

theorem upsertCore_venueKeys (st : UState) (r : RawRecord) (co : Option Coords)
    (d : Option PDate) :
    venueKeys (upsertCore st r co d).db = venueKeys (venueStep st r co).db := by
  unfold venueKeys
  rw [upsertCore_venues]

theorem venueStep_keys_mono (st : UState) (r : RawRecord) (co : Option Coords)
    (k : String × String) (hk : k ∈ venueKeys st.db) :
    k ∈ venueKeys (venueStep st r co).db := by
  unfold venueStep
  by_cases hv : strTruthy r.venue = true
  · simpa [hv] using getOrCreateVenue_keys_mono st _ _ co k hk
  · simpa [hv] using hk

theorem upsertCore_eventKeys_mono (st : UState) (r : RawRecord) (co : Option Coords)
    (d : Option PDate) (k : String × Option PDate) (hk : k ∈ eventKeys st.db) :
    k ∈ eventKeys (upsertCore st r co d).db := by
  unfold eventKeys
  rw [upsertCore_events]
  by_cases hm : st.db.events.any (eventMatch r.title d) = true
  · rw [if_pos hm,
      updateFirst_map (eventMatch r.title d) (updE r (recVenueKey r))
        (fun e => (e.title, e.date)) (fun x => rfl) st.db.events]
    exact hk
  · rw [if_neg hm, List.map_append, List.mem_append]
    exact Or.inl hk

theorem upsertCore_genres_mono (st : UState) (r : RawRecord) (co : Option Coords)
    (d : Option PDate) (x : String) (hx : x ∈ st.db.genres) :
    x ∈ (upsertCore st r co d).db.genres := by
  rw [upsertCore_genres]
  apply foldlGenre_mono
  rw [venueStep_genres]
  exact hx

theorem upsertCore_promoters_mono (st : UState) (r : RawRecord) (co : Option Coords)
    (d : Option PDate) (x : String) (hx : x ∈ st.db.promoters) :
    x ∈ (upsertCore st r co d).db.promoters := by
  rw [upsertCore_promoters]
  unfold attachSteps
  apply foldlPromoter_mono
  rw [foldlGenre_promoters, venueStep_promoters]
  exact hx

/-- After a successful upsert of a record carrying a title, its (title, date)
key is backed by an event row. -/
theorem upsertCore_eventKey_after (st : UState) (r : RawRecord) (co : Option Coords)
    (d : Option PDate) (t : String) (htt : r.title = some t) :
    (t, d) ∈ eventKeys (upsertCore st r co d).db := by
  unfold eventKeys
  rw [upsertCore_events]
  by_cases hm : st.db.events.any (eventMatch r.title d) = true
  · rw [if_pos hm,
      updateFirst_map (eventMatch r.title d) (updE r (recVenueKey r))
        (fun e => (e.title, e.date)) (fun x => rfl) st.db.events]
    rw [htt] at hm
    exact (any_eventMatch_iff t d _).mp hm
  · rw [if_neg hm, List.map_append, List.mem_append]
    right
    simp [newE, htt]

/-! ### processRecord-level lemmas -/

theorem processRecord_eq (st : UState) (rc : RawRecord × Option Coords) :
    processRecord st rc =
      match recDate? rc.1 with
      | none => st
      | some d => upsertCore st rc.1 rc.2 d := by
  unfold processRecord updateOrCreateEvent
  cases recDate? rc.1 <;> rfl

theorem processRecord_cacheOK (st : UState) (rc : RawRecord × Option Coords)
    (hok : cacheOK st) : cacheOK (processRecord st rc) := by
  rw [processRecord_eq]
  cases hr : recDate? rc.1 with
  | none => exact hok
  | some d => exact upsertCore_cacheOK st rc.1 rc.2 d hok

/-- The identity keys a record needs survive any other record's processing. -/
theorem recKeysIn_mono (st : UState) (rc : RawRecord × Option Coords) (r2 : RawRecord)
    (h : recKeysIn st.db r2) : recKeysIn (processRecord st rc).db r2 := by
  rw [processRecord_eq]
  cases hr : recDate? rc.1 with
  | none => exact h
  | some d =>
    unfold recKeysIn at h ⊢
    cases hr2 : recDate? r2 with
    | none => trivial
    | some d2 =>
      rw [hr2] at h
      obtain ⟨h1, h2, h3, h4⟩ := h
      refine ⟨?_, ?_, ?_, ?_⟩
      · intro t ht
        exact upsertCore_eventKeys_mono st rc.1 rc.2 d _ (h1 t ht)
      · intro hv
        rw [upsertCore_venueKeys]
        exact venueStep_keys_mono st rc.1 rc.2 _ (h2 hv)
      · intro g hg
        exact upsertCore_genres_mono st rc.1 rc.2 d g (h3 g hg)
      · intro p hp
        exact upsertCore_promoters_mono st rc.1 rc.2 d p (h4 p hp)

/-- Processing a titled record leaves all its identity keys backed by rows. -/
theorem processRecord_establishes (st : UState) (rc : RawRecord × Option Coords)
    (hok : cacheOK st) :
    recKeysIn (processRecord st rc).db rc.1 := by
  rw [processRecord_eq]
  unfold recKeysIn
  cases hr : recDate? rc.1 with
  | none => trivial
  | some d =>
    refine ⟨?_, ?_, ?_, ?_⟩
    · intro t htt
      exact upsertCore_eventKey_after st rc.1 rc.2 d t htt
    · intro hv
      rw [upsertCore_venueKeys]
      unfold venueStep
      rw [if_pos hv]
      exact getOrCreateVenue_key_after st _ _ rc.2 hok.1
    · intro g hg
      rw [upsertCore_genres]
      refine foldlGenre_after (dedupNE rc.1.genres) (venueStep st rc.1 rc.2) ?_ g hg
      rw [venueStep_genreCache]
      intro x hx
      rw [venueStep_genres]
      exact hok.2.1 x hx
    · intro p hp
      rw [upsertCore_promoters]
      unfold attachSteps
      refine foldlPromoter_after (filterNE rc.1.promoters) _ ?_ p hp
      rw [foldlGenre_promoterCache, venueStep_promoterCache]
      intro x hx
      rw [foldlGenre_promoters, venueStep_promoters]
      exact hok.2.2 x hx

/-- Processing a titled record whose identity keys are all backed adds no row
to any of the four tables. -/
theorem processRecord_nogrow (st : UState) (rc : RawRecord × Option Coords)
    (hk : recKeysIn st.db rc.1) (ht : rc.1.title.isSome = true) :
    counts (processRecord st rc).db = counts st.db := by
  rw [processRecord_eq]
  cases hr : recDate? rc.1 with
  | none => rfl
  | some d =>
    unfold recKeysIn at hk
    rw [hr] at hk
    obtain ⟨h1, h2, h3, h4⟩ := hk
    obtain ⟨t, htt⟩ := Option.isSome_iff_exists.mp ht
    have he : (upsertCore st rc.1 rc.2 d).db.events.length = st.db.events.length := by
      rw [upsertCore_events]
      have hm : st.db.events.any (eventMatch rc.1.title d) = true := by
        rw [htt]
        exact (any_eventMatch_iff t d _).mpr (h1 t htt)
      rw [if_pos hm, updateFirst_length]
    have hv : (upsertCore st rc.1 rc.2 d).db.venues.length = st.db.venues.length := by
      rw [upsertCore_venues]
      unfold venueStep
      by_cases hvv : strTruthy rc.1.venue = true
      · rw [if_pos hvv]
        exact getOrCreateVenue_nogrow st _ _ rc.2 (Or.inr (h2 hvv))
      · rw [if_neg hvv]
    have hg : (upsertCore st rc.1 rc.2 d).db.genres = st.db.genres := by
      rw [upsertCore_genres, foldlGenre_nogrow, venueStep_genres]
      intro g hgg
      rw [venueStep_genres]
      exact h3 g hgg
    have hp : (upsertCore st rc.1 rc.2 d).db.promoters = st.db.promoters := by
      rw [upsertCore_promoters]
      unfold attachSteps
      rw [foldlPromoter_nogrow, foldlGenre_promoters, venueStep_promoters]
      intro p hpp
      rw [foldlGenre_promoters, venueStep_promoters]
      exact h4 p hpp
    unfold counts
    rw [he, hv, hg, hp]

/-! ### batch-level lemmas -/

theorem foldl_recKeysIn_mono (batch : List (RawRecord × Option Coords)) (st : UState)
    (r2 : RawRecord) (h : recKeysIn st.db r2) :
    recKeysIn (batch.foldl processRecord st).db r2 := by
  induction batch generalizing st with
  | nil => exact h
  | cons rc batch ih => exact ih _ (recKeysIn_mono st rc r2 h)

theorem foldl_establishes (batch : List (RawRecord × Option Coords)) (st : UState)
    (hok : cacheOK st) (ht : ∀ rc ∈ batch, rc.1.title.isSome = true) :
    cacheOK (batch.foldl processRecord st) ∧
    ∀ rc ∈ batch, recKeysIn (batch.foldl processRecord st).db rc.1 := by
  induction batch generalizing st with
  | nil => exact ⟨hok, fun rc h => absurd h (List.not_mem_nil rc)⟩
  | cons rc0 batch ih =>
    have hok1 := processRecord_cacheOK st rc0 hok
    have hkeys0 := processRecord_establishes st rc0 hok
    obtain ⟨hokF, hkeysF⟩ :=
      ih (processRecord st rc0) hok1 (fun rc h => ht rc (List.mem_cons_of_mem rc0 h))
    refine ⟨hokF, ?_⟩
    intro rc h
    rcases List.mem_cons.mp h with h | h
    · subst h
      exact foldl_recKeysIn_mono batch _ _ hkeys0
    · exact hkeysF rc h

theorem foldl_preserves_counts (batch : List (RawRecord × Option Coords)) (st : UState)
    (h : ∀ rc ∈ batch, recKeysIn st.db rc.1)
    (ht : ∀ rc ∈ batch, rc.1.title.isSome = true) :
    counts (batch.foldl processRecord st).db = counts st.db := by
  induction batch generalizing st with
  | nil => rfl
  | cons rc0 batch ih =>
    rw [List.foldl_cons,
      ih (processRecord st rc0)
        (fun rc hrc => recKeysIn_mono st rc0 rc.1 (h rc (List.mem_cons_of_mem rc0 hrc)))
        (fun rc hrc => ht rc (List.mem_cons_of_mem rc0 hrc)),
      processRecord_nogrow st rc0 (h rc0 (List.mem_cons_self rc0 batch))
        (ht rc0 (List.mem_cons_self rc0 batch))]

/-! ### C1 theorems -/

/-- C1 counterexample: a record with NO title key breaks idempotence.  The
create path stores it under the default title "Untitled Event", but the
lookup query compares `Event.title == None` (SQL NULL), which matches no row
since the title column is NOT NULL -- so each run creates a fresh row: the
event count is 1 after one run and 2 after the identical second run. -/
theorem C1_counterexample :
    counts (runBatch emptyDB [(emptyRec, none)]) = (1, 0, 0, 0) ∧
    counts (runBatch (runBatch emptyDB [(emptyRec, none)]) [(emptyRec, none)]) =
      (2, 0, 0, 0) := by
  decide

/-- C1 (amended): for every batch whose records all carry a title key, running
the Upsert Engine a second time on the identical batch (same records, same
coordinates, a fresh `DatabaseUpdater`) leaves the row counts of the events,
venues, genres and promoters tables exactly as they were after the first run:
every lookup of the second run finds the row the first run created or
updated, so no row is added.  (A record whose title key is absent is
re-created on every run -- see the counterexample.) -/
theorem C1_idempotent_counts (db : DB) (batch : List (RawRecord × Option Coords))
    (ht : ∀ rc ∈ batch, rc.1.title.isSome = true) :
    counts (runBatch (runBatch db batch) batch) = counts (runBatch db batch) := by
  have h1 := foldl_establishes batch (freshUpdater db) (cacheOK_fresh db) ht
  exact foldl_preserves_counts batch (freshUpdater (runBatch db batch))
    (fun rc hrc => h1.2 rc hrc) ht

/-- The record used by the C1 witness. -/
def c1rec : RawRecord := { emptyRec with
  title := some "A", dateISO := some "2025-09-01",
  venue := some "PW", genres := ["Techno"], promoters := ["P"] }

/-- C1 witness: a concrete one-record batch exercising venue, genre and
promoter creation is idempotent in all four row counts. -/
theorem C1_witness :
    counts (runBatch (runBatch emptyDB [(c1rec, none)]) [(c1rec, none)]) =
      counts (runBatch emptyDB [(c1rec, none)]) :=
  C1_idempotent_counts emptyDB [(c1rec, none)] (by decide)

example : containsStr "TBA" "Club TBA" = true := by decide
example : containsStr "TBA" "tba club" = false := by decide
example : parseDateISO "2025-08-30" = some (2025, 8, 30) := by decide
example : parseDateISO "2025-02-30" = none := by decide
example : parseDateISO "garbage" = none := by decide
example : parseDateISO "2025-8-9" = some (2025, 8, 9) := by decide
example : latTruthy (some 0) = false := by decide

end SFEvents
